import Mathlib

/-!
# Kinematic bicycle vehicle model (kinematic_bicycle.cpp)

A shallow embedding of `gazebo::fssim::KinematicBicycle`.

* `double` is an ordered field `K` (exact arithmetic): the definitions run on
  `ℚ` and the theorems hold on `ℝ` as well. Rounding and overflow are not part
  of the model.
* `f`, `f_kin_correction` and `updateState_next` compute with the field's total
  division (`a / 0 = 0`): they give the values of the C++ where the
  denominators `m`, `I_z`, `m + m_lon_add` and `l` are not 0.
  `f_checked`, `f_kin_correction_checked` and `updateState_next_checked` follow
  the same source lines with values in `Dbl K`, where a quotient by `0.0` and
  everything computed from it is `nonfin` (an infinity or NaN). A statement
  that a computed field has a given value at every parameter set is made on
  the checked definitions.
* The members `param_`, `state_`, `input_` that the C++ methods read are
  explicit arguments.
* The `<cmath>` functions the file calls are the fields of `CMath`; a theorem
  that needs a fact about one of them (such as `sin 0 = 0`) takes it as a
  hypothesis, and its instance on `ℝ` uses `Real.sin`, `Real.cos`, `Real.tan`,
  `Real.arctan` and `√(x² + y²)`.
-/

namespace KinematicBicycle

/-! ## Data model -/

/-- Vehicle state: the fields of `State` this file reads and writes. -/
structure State (K : Type) where
  x : K
  y : K
  yaw : K
  v_x : K
  v_y : K
  r : K
  a_x : K
  a_y : K
deriving DecidableEq, Repr

/-- Driver command: steering angle `delta` and duty cycle `dc`. -/
structure Input (K : Type) where
  delta : K
  dc : K
deriving DecidableEq, Repr

/-- Fields of `param_.inertia`. -/
structure Inertia (K : Type) where
  m : K
  g : K
  I_z : K

/-- Fields of `param_.kinematic`; `l` is stored, not computed from `l_F + l_R`. -/
structure Kinematic (K : Type) where
  l : K
  b_F : K
  w_front : K
  l_F : K
  l_R : K

/-- Fields of `param_.tire`. -/
structure Tire (K : Type) where
  B : K
  C : K
  D : K
  E : K

/-- Fields of `param_.aero`. -/
structure Aero (K : Type) where
  c_down : K
  c_drag : K

/-- Fields of `param_.driveTrain`. -/
structure DriveTrain (K : Type) where
  cm1 : K
  cr0 : K
  m_lon_add : K

/-- Fields of `param_.torqueVectoring`. -/
structure TorqueVectoring (K : Type) where
  shrinkage : K
  K_stability : K

/-- The parameter block `param_`. -/
structure Param (K : Type) where
  inertia : Inertia K
  kinematic : Kinematic K
  tire : Tire K
  aero : Aero K
  driveTrain : DriveTrain K
  torqueVectoring : TorqueVectoring K

/-- The functions of `<cmath>` called by the model. -/
structure CMath (K : Type) where
  sin : K → K
  cos : K → K
  tan : K → K
  atan : K → K
  hypot : K → K → K

/-- What a call of `state_.validate()` leaves behind: the state now held by the
object and whether the call returned normally (`ok = false`: it raised an
error). The body of `validate` is in vehicle_model.hpp, so `updateState` takes
it as an argument. -/
structure Validation (K : Type) where
  state : State K
  ok : Bool

section Model

variable {K : Type} [LinearOrderedField K]

/-- Modelled from the spec: `State::operator+` of vehicle_model.hpp, which the
spec describes as component-wise (`state + derivative · dt`). -/
def State.add (a b : State K) : State K :=
  { x := a.x + b.x, y := a.y + b.y, yaw := a.yaw + b.yaw,
    v_x := a.v_x + b.v_x, v_y := a.v_y + b.v_y, r := a.r + b.r,
    a_x := a.a_x + b.a_x, a_y := a.a_y + b.a_y }

/-- Modelled from the spec: `State::operator*(double)` of vehicle_model.hpp,
which the spec describes as component-wise (`derivative · dt`). -/
def State.mul (a : State K) (dt : K) : State K :=
  { x := a.x * dt, y := a.y * dt, yaw := a.yaw * dt,
    v_x := a.v_x * dt, v_y := a.v_y * dt, r := a.r * dt,
    a_x := a.a_x * dt, a_y := a.a_y * dt }

/-! ## Force helpers -/

/-- `getFdown`: `c_down * v_x * v_x`. -/
def getFdown (p : Param K) (x : State K) : K :=
  p.aero.c_down * x.v_x * x.v_x

/-- `getFdrag`: `c_drag * v_x * v_x`. -/
def getFdrag (p : Param K) (x : State K) : K :=
  p.aero.c_drag * x.v_x * x.v_x

/-- `getNormalForce`: `g * m + getFdown(x)`. -/
def getNormalForce (p : Param K) (x : State K) : K :=
  p.inertia.g * p.inertia.m + getFdown p x

/-- `getDownForceFront`: `0.5 * w_front * Fz`. -/
def getDownForceFront (p : Param K) (Fz : K) : K :=
  0.5 * p.kinematic.w_front * Fz

/-- `getDownForceRear`: `0.5 * (1 - w_front) * Fz`. -/
def getDownForceRear (p : Param K) (Fz : K) : K :=
  0.5 * (1 - p.kinematic.w_front) * Fz

/-- `getFrontFy`. `getSlipAngle` is the method of vehicle_model.hpp (argument
`isFront`, default `true`), evaluated on the current `state_` and `input_`. -/
def getFrontFy (M : CMath K) (p : Param K) (getSlipAngle : Bool → K) (Fz : K) : K :=
  let slipAngle := getSlipAngle true
  let Fz_axle := getDownForceFront p Fz
  let B := p.tire.B
  let C := p.tire.C
  let D := p.tire.D
  let E := p.tire.E
  let mu_y := D * M.sin (C * M.atan (B * (1.0 - E) * slipAngle + E * M.atan (B * slipAngle)))
  let Fy := Fz_axle * mu_y
  Fy

/-- `getRearFy`: the slip angle is `getSlipAngle(false)`; the axle load is
again `getDownForceFront(Fz)`. -/
def getRearFy (M : CMath K) (p : Param K) (getSlipAngle : Bool → K) (Fz : K) : K :=
  let slipAngle := getSlipAngle false
  let Fz_axle := getDownForceFront p Fz
  let B := p.tire.B
  let C := p.tire.C
  let D := p.tire.D
  let E := p.tire.E
  let mu_y := D * M.sin (C * M.atan (B * (1.0 - E) * slipAngle + E * M.atan (B * slipAngle)))
  let Fy := Fz_axle * mu_y
  Fy

/-- `getFx`: the duty cycle is replaced by 0 when `v_x <= 0` and `dc < 0`. -/
def getFx (p : Param K) (x : State K) (u : Input K) : K :=
  let dc := if x.v_x ≤ 0.0 ∧ u.dc < 0.0 then 0.0 else u.dc
  let Fx := dc * p.driveTrain.cm1 - getFdrag p x - p.driveTrain.cr0
  Fx

/-- `getMTv`: reads `shrinkage`, `K_stability`, `l`, `delta`, `v_x` and
returns `0.0`. -/
def getMTv (p : Param K) (x : State K) (u : Input K) : K :=
  let _shrinkage := p.torqueVectoring.shrinkage
  let _K_stab := p.torqueVectoring.K_stability
  let _l := p.kinematic.l
  let _delta := u.delta
  let _v_x := x.v_x
  0.0

/-! ## Dynamics -/

/-- `f`: the derivative of the single-track model, with the field's division:
the values of the C++ where `m`, `I_z` and `m + m_lon_add` are not 0
(`f_checked` tells the quotients by `0.0` apart). -/
def f (M : CMath K) (p : Param K) (x : State K) (u : Input K)
    (Fx M_TV FyF FyR : K) : State K :=
  let FyF_tot := 2 * FyF
  let FyR_tot := 2 * FyR
  let v_x := max 1.0 x.v_x
  let m_lon := p.inertia.m + p.driveTrain.m_lon_add
  { x := M.cos x.yaw * x.v_x - M.sin x.yaw * x.v_y
    y := M.sin x.yaw * x.v_x + M.cos x.yaw * x.v_y
    yaw := x.r
    v_x := (x.r * x.v_y) + (Fx - M.sin u.delta * FyF_tot) / m_lon
    v_y := ((M.cos u.delta * FyF_tot) + FyR_tot) / p.inertia.m - (x.r * v_x)
    r := ((M.cos u.delta * FyF_tot * p.kinematic.l_F
            + M.sin u.delta * 0 * 0.5 * p.kinematic.b_F)
          - (FyR_tot * p.kinematic.l_R)
          + M_TV) / p.inertia.I_z
    a_x := 0
    a_y := 0 }

/-- The blend factor of `f_kin_correction` (its locals `v`, `v_blend`,
`blend`): computed from the member `state_`. -/
def f_kin_blend (M : CMath K) (state_ : State K) : K :=
  let v := M.hypot state_.v_x state_.v_y
  let v_blend := 0.5 * (v - 1.5)
  let blend := max (min 1.0 v_blend) 0.0
  blend

/-- `f_kin_correction`. `state_` is the member the speed is read from;
`x_in`, `x_state`, `u`, `Fx`, `M_TV`, `dt` are the arguments. The division is
the field's: the values of the C++ where `l` and `m + m_lon_add` are not 0
(`f_kin_correction_checked` tells the quotients by `0.0` apart). -/
def f_kin_correction (M : CMath K) (p : Param K) (state_ : State K)
    (x_in x_state : State K) (u : Input K) (Fx _M_TV dt : K) : State K :=
  let v_x_dot := Fx / (p.inertia.m + p.driveTrain.m_lon_add)
  let blend := f_kin_blend M state_
  let x1 : State K :=
    { x_in with v_x := blend * x_in.v_x + (1.0 - blend) * (x_state.v_x + dt * v_x_dot) }
  let v_y := M.tan u.delta * x1.v_x * p.kinematic.l_R / p.kinematic.l
  let r := M.tan u.delta * x1.v_x / p.kinematic.l
  let x2 : State K := { x1 with v_y := blend * x1.v_y + (1.0 - blend) * v_y }
  let x3 : State K := { x2 with r := blend * x2.r + (1.0 - blend) * r }
  x3

/-- The value `updateState` assigns to `state_` (its lines up to the call of
`f_kin_correction`), before `state_.validate()` runs, with the field's division
(`updateState_next_checked` tells the quotients by `0.0` apart). -/
def updateState_next (M : CMath K) (p : Param K) (getSlipAngle : Bool → K)
    (state_ : State K) (input_ : Input K) (dt : K) : State K :=
  let Fz := getNormalForce p state_
  let _alphaF := getSlipAngle true
  let _alphaR := getSlipAngle false
  let FyF := getFrontFy M p getSlipAngle Fz
  let FyR := getRearFy M p getSlipAngle Fz
  let Fx := getFx p state_ input_
  let M_Tv := getMTv p state_ input_
  let x_dot_dyn := f M p state_ input_ Fx M_Tv FyF FyR
  let x_next_dyn := State.add state_ (State.mul x_dot_dyn dt)
  f_kin_correction M p state_ x_next_dyn state_ input_ Fx M_Tv dt

/-- `updateState`: `state_` is assigned the corrected state, then
`state_.validate()` is called on it. The result is the state the object holds
afterwards and whether the call returned normally. -/
def updateState (M : CMath K) (p : Param K) (getSlipAngle : Bool → K)
    (validate : State K → Validation K)
    (state_ : State K) (input_ : Input K) (dt : K) : Validation K :=
  validate (updateState_next M p getSlipAngle state_ input_ dt)

/-- A parameter set with round values, used at concrete inputs:
`m = 190`, `m_lon_add = 10`, `l = 1.5`, `l_F = l_R = 0.75`, `cm1 = 5000`,
`cr0 = 180`, `c_drag = 0.7`. -/
def carParam : Param K :=
  { inertia := { m := 190, g := 9.81, I_z := 110 }
    kinematic := { l := 1.5, b_F := 1.22, w_front := 0.5, l_F := 0.75, l_R := 0.75 }
    tire := { B := 12.56, C := 1.38, D := 1.6, E := 0.58 }
    aero := { c_down := 1.22, c_drag := 0.7 }
    driveTrain := { cm1 := 5000, cr0 := 180, m_lon_add := 10 }
    torqueVectoring := { shrinkage := 0, K_stability := 0 } }

/-! ## Division by zero

The definitions above compute with the field's total division. The definitions
of this part follow the same source lines with every intermediate value either
finite or not, so that a quotient by `0.0` and everything computed from it is
told apart from a finite result. -/

/-- A `double` that is finite (`fin a`) or not finite (`nonfin`: `+inf`, `−inf`
or NaN). That a computed value is the number `a` is written `= Dbl.fin a`;
`nonfin` is no number. -/
inductive Dbl (K : Type) where
  | fin (a : K) : Dbl K
  | nonfin : Dbl K
deriving DecidableEq, Repr

/-- Sum of doubles: `inf + a`, `inf − inf`, `NaN + a` are not finite. -/
def Dbl.add : Dbl K → Dbl K → Dbl K
  | Dbl.fin a, Dbl.fin b => Dbl.fin (a + b)
  | _, _ => Dbl.nonfin

/-- Difference of doubles: not finite as soon as one side is not. -/
def Dbl.sub : Dbl K → Dbl K → Dbl K
  | Dbl.fin a, Dbl.fin b => Dbl.fin (a - b)
  | _, _ => Dbl.nonfin

/-- Product of doubles: `inf * a` is `±inf` and `inf * 0`, `NaN * a` are NaN, so
the product is not finite as soon as one factor is not. -/
def Dbl.mul : Dbl K → Dbl K → Dbl K
  | Dbl.fin a, Dbl.fin b => Dbl.fin (a * b)
  | _, _ => Dbl.nonfin

/-- Quotient of a double by a finite double: `a / 0.0` is `±inf` or NaN for
every `a`, and `inf / b`, `NaN / b` are not finite. -/
def Dbl.div : Dbl K → K → Dbl K
  | Dbl.fin a, b => if b = 0 then Dbl.nonfin else Dbl.fin (a / b)
  | Dbl.nonfin, _ => Dbl.nonfin

instance : Add (Dbl K) := ⟨Dbl.add⟩

instance : Sub (Dbl K) := ⟨Dbl.sub⟩

instance : Mul (Dbl K) := ⟨Dbl.mul⟩

instance : HDiv (Dbl K) K (Dbl K) := ⟨Dbl.div⟩

/-- A state all of whose fields are finite. -/
def State.fin (s : State K) : State (Dbl K) :=
  { x := Dbl.fin s.x, y := Dbl.fin s.y, yaw := Dbl.fin s.yaw,
    v_x := Dbl.fin s.v_x, v_y := Dbl.fin s.v_y, r := Dbl.fin s.r,
    a_x := Dbl.fin s.a_x, a_y := Dbl.fin s.a_y }

/-- Modelled from the spec: `State::operator+` of vehicle_model.hpp,
component-wise, on states whose fields may be not finite. -/
def State.add_checked (a b : State (Dbl K)) : State (Dbl K) :=
  { x := a.x + b.x, y := a.y + b.y, yaw := a.yaw + b.yaw,
    v_x := a.v_x + b.v_x, v_y := a.v_y + b.v_y, r := a.r + b.r,
    a_x := a.a_x + b.a_x, a_y := a.a_y + b.a_y }

/-- Modelled from the spec: `State::operator*(double)` of vehicle_model.hpp,
component-wise, on a state whose fields may be not finite. -/
def State.mul_checked (a : State (Dbl K)) (dt : K) : State (Dbl K) :=
  { x := a.x * Dbl.fin dt, y := a.y * Dbl.fin dt, yaw := a.yaw * Dbl.fin dt,
    v_x := a.v_x * Dbl.fin dt, v_y := a.v_y * Dbl.fin dt, r := a.r * Dbl.fin dt,
    a_x := a.a_x * Dbl.fin dt, a_y := a.a_y * Dbl.fin dt }

/-- `f` with its three quotients (by `m_lon`, by `m`, by `I_z`) checked: the
arguments are finite, a component of the derivative is `nonfin` when its
denominator is 0. -/
def f_checked (M : CMath K) (p : Param K) (x : State K) (u : Input K)
    (Fx M_TV FyF FyR : K) : State (Dbl K) :=
  let FyF_tot := 2 * FyF
  let FyR_tot := 2 * FyR
  let v_x := max 1.0 x.v_x
  let m_lon := p.inertia.m + p.driveTrain.m_lon_add
  { x := Dbl.fin (M.cos x.yaw * x.v_x - M.sin x.yaw * x.v_y)
    y := Dbl.fin (M.sin x.yaw * x.v_x + M.cos x.yaw * x.v_y)
    yaw := Dbl.fin x.r
    v_x := Dbl.fin (x.r * x.v_y) + Dbl.fin (Fx - M.sin u.delta * FyF_tot) / m_lon
    v_y := Dbl.fin ((M.cos u.delta * FyF_tot) + FyR_tot) / p.inertia.m - Dbl.fin (x.r * v_x)
    r := Dbl.fin ((M.cos u.delta * FyF_tot * p.kinematic.l_F
            + M.sin u.delta * 0 * 0.5 * p.kinematic.b_F)
          - (FyR_tot * p.kinematic.l_R)
          + M_TV) / p.inertia.I_z
    a_x := Dbl.fin 0
    a_y := Dbl.fin 0 }

/-- `f_kin_correction` with its three quotients (by `m_lon`, and twice by `l`)
checked. The Euler-stepped state `x_in` may have fields that are not finite;
`state_`, `x_state`, `u`, `Fx`, `dt` are finite. -/
def f_kin_correction_checked (M : CMath K) (p : Param K) (state_ : State K)
    (x_in : State (Dbl K)) (x_state : State K) (u : Input K) (Fx _M_TV dt : K) :
    State (Dbl K) :=
  let v_x_dot : Dbl K := Dbl.fin Fx / (p.inertia.m + p.driveTrain.m_lon_add)
  let blend := f_kin_blend M state_
  let x1 : State (Dbl K) :=
    { x_in with v_x := Dbl.fin blend * x_in.v_x
        + Dbl.fin (1.0 - blend) * (Dbl.fin x_state.v_x + Dbl.fin dt * v_x_dot) }
  let v_y : Dbl K := Dbl.fin (M.tan u.delta) * x1.v_x * Dbl.fin p.kinematic.l_R / p.kinematic.l
  let r : Dbl K := Dbl.fin (M.tan u.delta) * x1.v_x / p.kinematic.l
  let x2 : State (Dbl K) :=
    { x1 with v_y := Dbl.fin blend * x1.v_y + Dbl.fin (1.0 - blend) * v_y }
  let x3 : State (Dbl K) := { x2 with r := Dbl.fin blend * x2.r + Dbl.fin (1.0 - blend) * r }
  x3

/-- The value `updateState` assigns to `state_`, with the quotients of `f` and
`f_kin_correction` checked; the force helpers have no quotient. -/
def updateState_next_checked (M : CMath K) (p : Param K) (getSlipAngle : Bool → K)
    (state_ : State K) (input_ : Input K) (dt : K) : State (Dbl K) :=
  let Fz := getNormalForce p state_
  let _alphaF := getSlipAngle true
  let _alphaR := getSlipAngle false
  let FyF := getFrontFy M p getSlipAngle Fz
  let FyR := getRearFy M p getSlipAngle Fz
  let Fx := getFx p state_ input_
  let M_Tv := getMTv p state_ input_
  let x_dot_dyn := f_checked M p state_ input_ Fx M_Tv FyF FyR
  let x_next_dyn := State.add_checked (State.fin state_) (State.mul_checked x_dot_dyn dt)
  f_kin_correction_checked M p state_ x_next_dyn state_ input_ Fx M_Tv dt

end Model

/-! ## Lemmas on the blend factor -/

section BlendLemmas

variable {K : Type} [LinearOrderedField K]

lemma lit_one : (1.0 : K) = 1 := by norm_num

lemma f_kin_blend_of_fast (M : CMath K) (s : State K)
    (h : 3.5 ≤ M.hypot s.v_x s.v_y) : f_kin_blend M s = 1 := by
  have h1 : (1 : K) ≤ 0.5 * (M.hypot s.v_x s.v_y - 1.5) := by
    norm_num at h ⊢
    linarith
  simp only [f_kin_blend]
  norm_num
  rw [min_eq_left (by norm_num at h1 ⊢; linarith)]
  norm_num

lemma f_kin_blend_of_slow (M : CMath K) (s : State K)
    (h : M.hypot s.v_x s.v_y ≤ 1.5) : f_kin_blend M s = 0 := by
  have h1 : 0.5 * (M.hypot s.v_x s.v_y - 1.5) ≤ (0 : K) := by
    norm_num at h ⊢
    linarith
  simp only [f_kin_blend]
  norm_num
  norm_num at h1
  linarith

lemma f_kin_blend_nonneg (M : CMath K) (s : State K) : 0 ≤ f_kin_blend M s := by
  simp only [f_kin_blend]
  norm_num

lemma f_kin_blend_le_one (M : CMath K) (s : State K) : f_kin_blend M s ≤ 1 := by
  simp only [f_kin_blend]
  norm_num

lemma f_kin_blend_eq_zero_iff (M : CMath K) (s : State K) :
    f_kin_blend M s = 0 ↔ M.hypot s.v_x s.v_y ≤ 1.5 := by
  constructor
  · intro h
    simp only [f_kin_blend] at h
    norm_num at h
    norm_num
    linarith
  · exact f_kin_blend_of_slow M s

lemma f_kin_blend_mono (M : CMath K) (s t : State K)
    (h : M.hypot s.v_x s.v_y ≤ M.hypot t.v_x t.v_y) :
    f_kin_blend M s ≤ f_kin_blend M t := by
  simp only [f_kin_blend]
  apply max_le_max _ le_rfl
  apply min_le_min le_rfl
  have h5 : (0 : K) ≤ 0.5 := by norm_num
  exact mul_le_mul_of_nonneg_left (by linarith) h5

end BlendLemmas

/-! ## Lemmas on the tire forces -/

section TireLemmas

variable {K : Type} [LinearOrderedField K]

lemma getFrontFy_zero_slip (M : CMath K) (p : Param K) (getSlipAngle : Bool → K) (Fz : K)
    (ha : getSlipAngle true = 0) (hsin : M.sin 0 = 0) (hatan : M.atan 0 = 0) :
    getFrontFy M p getSlipAngle Fz = 0 := by
  simp only [getFrontFy, ha, mul_zero, hatan, add_zero, hsin]

lemma getRearFy_zero_slip (M : CMath K) (p : Param K) (getSlipAngle : Bool → K) (Fz : K)
    (ha : getSlipAngle false = 0) (hsin : M.sin 0 = 0) (hatan : M.atan 0 = 0) :
    getRearFy M p getSlipAngle Fz = 0 := by
  simp only [getRearFy, ha, mul_zero, hatan, add_zero, hsin]

lemma tire_curve_abs_le (M : CMath K) (hsin : ∀ t, |M.sin t| ≤ 1) (Fz_axle D t : K) :
    |Fz_axle * (D * M.sin t)| ≤ |D| * |Fz_axle| := by
  rw [abs_mul, abs_mul]
  have h1 : |D| * |M.sin t| ≤ |D| * 1 := mul_le_mul_of_nonneg_left (hsin t) (abs_nonneg D)
  calc |Fz_axle| * (|D| * |M.sin t|) ≤ |Fz_axle| * (|D| * 1) :=
        mul_le_mul_of_nonneg_left h1 (abs_nonneg Fz_axle)
    _ = |D| * |Fz_axle| := by ring

lemma cmath_odd_zero (g : K → K) (hodd : ∀ t, g (-t) = -g t) : g 0 = 0 := by
  have h := hodd 0
  rw [neg_zero] at h
  linarith

lemma tire_curve_neg (M : CMath K) (hsin : ∀ t, M.sin (-t) = -M.sin t)
    (hatan : ∀ t, M.atan (-t) = -M.atan t) (B C D E a : K) :
    D * M.sin (C * M.atan (B * (1.0 - E) * (-a) + E * M.atan (B * (-a))))
      = -(D * M.sin (C * M.atan (B * (1.0 - E) * a + E * M.atan (B * a)))) := by
  have h1 : B * (1.0 - E) * (-a) + E * M.atan (B * (-a))
      = -(B * (1.0 - E) * a + E * M.atan (B * a)) := by
    rw [mul_neg B a, hatan]
    ring
  rw [h1, hatan, mul_neg, hsin, mul_neg]

end TireLemmas

/-! ## Lemmas in field arithmetic

Facts about the definitions that compute with the field's division; the claims
below use them where the denominators are not 0. -/

section FieldLemmas

variable {K : Type} [LinearOrderedField K]

lemma State.eq_of_fields {α : Type} (a b : State α)
    (h1 : a.x = b.x) (h2 : a.y = b.y) (h3 : a.yaw = b.yaw) (h4 : a.v_x = b.v_x)
    (h5 : a.v_y = b.v_y) (h6 : a.r = b.r) (h7 : a.a_x = b.a_x) (h8 : a.a_y = b.a_y) :
    a = b := by
  cases a
  cases b
  simp_all

/-- At pre-step speed at least 3.5 the blend factor is 1 and the field
arithmetic returns `v_x`, `v_y`, `r` of `x_in`. -/
lemma f_kin_correction_high_speed_field (M : CMath K) (p : Param K)
    (state_ x_in x_state : State K) (u : Input K) (Fx M_TV dt : K)
    (h : 3.5 ≤ M.hypot state_.v_x state_.v_y) :
    f_kin_blend M state_ = 1 ∧
    (f_kin_correction M p state_ x_in x_state u Fx M_TV dt).v_x = x_in.v_x ∧
    (f_kin_correction M p state_ x_in x_state u Fx M_TV dt).v_y = x_in.v_y ∧
    (f_kin_correction M p state_ x_in x_state u Fx M_TV dt).r = x_in.r := by
  have hb := f_kin_blend_of_fast M state_ h
  refine ⟨hb, ?_, ?_, ?_⟩ <;> norm_num [f_kin_correction, hb]

/-- At standstill with zero input and zero slip angles the field arithmetic
gives `v_x = dt·(−cr0)/(m + m_lon_add)` and keeps `v_y`, `r`, `a_x`, `a_y`. -/
lemma updateState_zero_input_field (M : CMath K) (p : Param K) (getSlipAngle : Bool → K)
    (s : State K) (u : Input K) (dt : K)
    (hvx : s.v_x = 0) (hvy : s.v_y = 0) (hr : s.r = 0)
    (hdc : u.dc = 0) (hdelta : u.delta = 0)
    (haF : getSlipAngle true = 0) (haR : getSlipAngle false = 0)
    (hsin : M.sin 0 = 0) (hatan : M.atan 0 = 0) (htan : M.tan 0 = 0) :
    (updateState_next M p getSlipAngle s u dt).v_x
      = dt * (-p.driveTrain.cr0 / (p.inertia.m + p.driveTrain.m_lon_add)) ∧
    (p.driveTrain.cr0 = 0 → (updateState_next M p getSlipAngle s u dt).v_x = s.v_x) ∧
    (updateState_next M p getSlipAngle s u dt).v_y = s.v_y ∧
    (updateState_next M p getSlipAngle s u dt).r = s.r ∧
    (updateState_next M p getSlipAngle s u dt).a_x = s.a_x ∧
    (updateState_next M p getSlipAngle s u dt).a_y = s.a_y := by
  have hF := getFrontFy_zero_slip M p getSlipAngle (getNormalForce p s) haF hsin hatan
  have hR := getRearFy_zero_slip M p getSlipAngle (getNormalForce p s) haR hsin hatan
  have hx : (updateState_next M p getSlipAngle s u dt).v_x
      = dt * (-p.driveTrain.cr0 / (p.inertia.m + p.driveTrain.m_lon_add)) := by
    simp only [updateState_next, hF, hR, f_kin_correction, f, getFx, getMTv,
      getFdrag, State.add, State.mul, hvx, hvy, hr, hdc, hdelta]
    norm_num
    ring
  refine ⟨hx, ?_, ?_, ?_, ?_, ?_⟩
  · intro hcr
    rw [hx, hcr, hvx]
    simp
  · simp only [updateState_next, hF, hR, f_kin_correction, f, getFx, getMTv,
      getFdrag, State.add, State.mul, hvx, hvy, hr, hdc, hdelta, htan]
    norm_num
  · simp only [updateState_next, hF, hR, f_kin_correction, f, getFx, getMTv,
      getFdrag, State.add, State.mul, hvx, hvy, hr, hdc, hdelta, htan]
    norm_num
  · simp [updateState_next, f_kin_correction, f, State.add, State.mul]
  · simp [updateState_next, f_kin_correction, f, State.add, State.mul]

/-- Driving straight at `v_x ≥ 3.5` with zero slip angles the field arithmetic
keeps `yaw`, `v_y`, `r` and gives `v_x + dt·Fx/m_lon`. -/
lemma updateState_straight_line_field (M : CMath K) (p : Param K) (getSlipAngle : Bool → K)
    (s : State K) (u : Input K) (dt : K)
    (hvy : s.v_y = 0) (hr : s.r = 0) (hvx : 3.5 ≤ s.v_x) (hdelta : u.delta = 0)
    (haF : getSlipAngle true = 0) (haR : getSlipAngle false = 0)
    (hsin : M.sin 0 = 0) (hatan : M.atan 0 = 0) (hhyp : ∀ a, M.hypot a 0 = |a|) :
    (updateState_next M p getSlipAngle s u dt).yaw = s.yaw ∧
    (updateState_next M p getSlipAngle s u dt).v_y = s.v_y ∧
    (updateState_next M p getSlipAngle s u dt).r = s.r ∧
    (updateState_next M p getSlipAngle s u dt).v_x
      = s.v_x + dt * getFx p s u / (p.inertia.m + p.driveTrain.m_lon_add) := by
  have hF := getFrontFy_zero_slip M p getSlipAngle (getNormalForce p s) haF hsin hatan
  have hR := getRearFy_zero_slip M p getSlipAngle (getNormalForce p s) haR hsin hatan
  have hv : 3.5 ≤ M.hypot s.v_x s.v_y := by
    rw [hvy, hhyp]
    exact le_trans hvx (le_abs_self _)
  have hb := f_kin_blend_of_fast M s hv
  refine ⟨?_, ?_, ?_, ?_⟩
  · simp [updateState_next, f_kin_correction, f, State.add, State.mul, hr]
  · simp only [updateState_next, hF, hR, hb, f_kin_correction, f, getMTv,
      State.add, State.mul, hvy, hr, hdelta]
    norm_num
  · simp only [updateState_next, hF, hR, hb, f_kin_correction, f, getMTv,
      State.add, State.mul, hvy, hr, hdelta]
    norm_num
  · simp only [updateState_next, hF, hR, hb, f_kin_correction, f, getMTv,
      State.add, State.mul, hvy, hr, hdelta]
    norm_num
    ring

/-- With `dt = 0` the field arithmetic keeps `x`, `y`, `yaw`, `v_x`, `a_x`,
`a_y`, and the whole state at pre-step speed at least 3.5. -/
lemma updateState_zero_dt_field (M : CMath K) (p : Param K) (getSlipAngle : Bool → K)
    (s : State K) (u : Input K) :
    (updateState_next M p getSlipAngle s u 0).x = s.x ∧
    (updateState_next M p getSlipAngle s u 0).y = s.y ∧
    (updateState_next M p getSlipAngle s u 0).yaw = s.yaw ∧
    (updateState_next M p getSlipAngle s u 0).v_x = s.v_x ∧
    (updateState_next M p getSlipAngle s u 0).a_x = s.a_x ∧
    (updateState_next M p getSlipAngle s u 0).a_y = s.a_y ∧
    (3.5 ≤ M.hypot s.v_x s.v_y → updateState_next M p getSlipAngle s u 0 = s) := by
  refine ⟨?_, ?_, ?_, ?_, ?_, ?_, ?_⟩
  · simp only [updateState_next, f_kin_correction, State.add, State.mul, mul_zero, add_zero]
  · simp only [updateState_next, f_kin_correction, State.add, State.mul, mul_zero, add_zero]
  · simp only [updateState_next, f_kin_correction, State.add, State.mul, mul_zero, add_zero]
  · simp only [updateState_next, f_kin_correction, State.add, State.mul, mul_zero, add_zero,
      zero_mul, lit_one]
    ring
  · simp only [updateState_next, f_kin_correction, State.add, State.mul, mul_zero, add_zero]
  · simp only [updateState_next, f_kin_correction, State.add, State.mul, mul_zero, add_zero]
  · intro h
    have hb := f_kin_blend_of_fast M s h
    obtain ⟨x, y, yaw, v_x, v_y, r, a_x, a_y⟩ := s
    simp only [updateState_next, f_kin_correction, hb, State.add, State.mul, mul_zero,
      add_zero, zero_mul, lit_one, sub_self, one_mul]

/-- At pre-step speed at most 1.5 the field arithmetic gives `v_y = l_R·r`. -/
lemma f_kin_correction_no_slip_field (M : CMath K) (p : Param K)
    (state_ x_in x_state : State K) (u : Input K) (Fx M_TV dt : K)
    (h : M.hypot state_.v_x state_.v_y ≤ 1.5) :
    (f_kin_correction M p state_ x_in x_state u Fx M_TV dt).v_y
      = p.kinematic.l_R * (f_kin_correction M p state_ x_in x_state u Fx M_TV dt).r := by
  have hb := f_kin_blend_of_slow M state_ h
  simp only [f_kin_correction, hb, lit_one, zero_mul, zero_add, sub_zero, one_mul]
  ring

/-- At pre-step speed at most 1.5 the field arithmetic gives the kinematic yaw
rate for `v_x(pre) + dt·Fx/m_lon`. -/
lemma f_kin_correction_slow_r_field (M : CMath K) (p : Param K)
    (state_ x_in x_state : State K) (u : Input K) (Fx M_TV dt : K)
    (h : M.hypot state_.v_x state_.v_y ≤ 1.5) :
    (f_kin_correction M p state_ x_in x_state u Fx M_TV dt).r
      = M.tan u.delta * (x_state.v_x + dt * Fx / (p.inertia.m + p.driveTrain.m_lon_add))
          / p.kinematic.l := by
  have hb := f_kin_blend_of_slow M state_ h
  simp only [f_kin_correction, hb, lit_one, zero_mul, zero_add, sub_zero, one_mul]
  ring

end FieldLemmas

/-! ## Lemmas on checked division -/

section CheckedLemmas

variable {K : Type} [LinearOrderedField K]

lemma Dbl.fin_add_fin (a b : K) : Dbl.fin a + Dbl.fin b = Dbl.fin (a + b) := rfl

lemma Dbl.fin_sub_fin (a b : K) : Dbl.fin a - Dbl.fin b = Dbl.fin (a - b) := rfl

lemma Dbl.fin_mul_fin (a b : K) : Dbl.fin a * Dbl.fin b = Dbl.fin (a * b) := rfl

lemma Dbl.fin_div_of_ne (a : K) {b : K} (h : b ≠ 0) :
    Dbl.fin a / b = Dbl.fin (a / b) := by
  show Dbl.div (Dbl.fin a) b = Dbl.fin (a / b)
  simp only [Dbl.div, if_neg h]

lemma Dbl.div_zero (a : Dbl K) : a / (0 : K) = Dbl.nonfin := by
  show Dbl.div a 0 = Dbl.nonfin
  cases a <;> simp [Dbl.div]

lemma Dbl.mul_nonfin (a : Dbl K) : a * Dbl.nonfin = Dbl.nonfin := by
  show Dbl.mul a Dbl.nonfin = Dbl.nonfin
  cases a <;> rfl

lemma Dbl.nonfin_mul (a : Dbl K) : Dbl.nonfin * a = Dbl.nonfin := by
  show Dbl.mul Dbl.nonfin a = Dbl.nonfin
  cases a <;> rfl

lemma Dbl.add_nonfin (a : Dbl K) : a + Dbl.nonfin = Dbl.nonfin := by
  show Dbl.add a Dbl.nonfin = Dbl.nonfin
  cases a <;> rfl

lemma Dbl.nonfin_add (a : Dbl K) : Dbl.nonfin + a = Dbl.nonfin := by
  show Dbl.add Dbl.nonfin a = Dbl.nonfin
  cases a <;> rfl

lemma Dbl.nonfin_sub (a : Dbl K) : Dbl.nonfin - a = Dbl.nonfin := by
  show Dbl.sub Dbl.nonfin a = Dbl.nonfin
  cases a <;> rfl

lemma Dbl.nonfin_div (b : K) : (Dbl.nonfin : Dbl K) / b = Dbl.nonfin := rfl

/-- With `m + m_lon_add ≠ 0` the checked `v_x_dot` is the finite value of `f`. -/
lemma f_checked_v_x (M : CMath K) (p : Param K) (x : State K) (u : Input K)
    (Fx M_TV FyF FyR : K) (hmlon : p.inertia.m + p.driveTrain.m_lon_add ≠ 0) :
    (f_checked M p x u Fx M_TV FyF FyR).v_x = Dbl.fin (f M p x u Fx M_TV FyF FyR).v_x := by
  simp only [f_checked, f, Dbl.fin_div_of_ne _ hmlon, Dbl.fin_add_fin]

/-- With `m ≠ 0` the checked `v_y_dot` is the finite value of `f`. -/
lemma f_checked_v_y (M : CMath K) (p : Param K) (x : State K) (u : Input K)
    (Fx M_TV FyF FyR : K) (hm : p.inertia.m ≠ 0) :
    (f_checked M p x u Fx M_TV FyF FyR).v_y = Dbl.fin (f M p x u Fx M_TV FyF FyR).v_y := by
  simp only [f_checked, f, Dbl.fin_div_of_ne _ hm, Dbl.fin_sub_fin]

/-- With `I_z ≠ 0` the checked `r_dot` is the finite value of `f`. -/
lemma f_checked_r (M : CMath K) (p : Param K) (x : State K) (u : Input K)
    (Fx M_TV FyF FyR : K) (hI : p.inertia.I_z ≠ 0) :
    (f_checked M p x u Fx M_TV FyF FyR).r = Dbl.fin (f M p x u Fx M_TV FyF FyR).r := by
  simp only [f_checked, f, Dbl.fin_div_of_ne _ hI]

/-- With `l ≠ 0` and `m + m_lon_add ≠ 0`, `f_kin_correction` on a finite
Euler-stepped state is finite, with the fields the field arithmetic gives. -/
lemma f_kin_correction_checked_fin (M : CMath K) (p : Param K)
    (state_ x_in x_state : State K) (u : Input K) (Fx M_TV dt : K)
    (hl : p.kinematic.l ≠ 0) (hmlon : p.inertia.m + p.driveTrain.m_lon_add ≠ 0) :
    f_kin_correction_checked M p state_ (State.fin x_in) x_state u Fx M_TV dt
      = State.fin (f_kin_correction M p state_ x_in x_state u Fx M_TV dt) := by
  simp only [f_kin_correction_checked, f_kin_correction, State.fin,
    Dbl.fin_div_of_ne _ hmlon, Dbl.fin_div_of_ne _ hl, Dbl.fin_add_fin, Dbl.fin_mul_fin]

/-- The fields `x`, `y`, `yaw`, `a_x`, `a_y` computed by `updateState` involve
no quotient: they are finite for every parameter set. -/
lemma updateState_next_checked_frame (M : CMath K) (p : Param K) (getSlipAngle : Bool → K)
    (s : State K) (u : Input K) (dt : K) :
    (updateState_next_checked M p getSlipAngle s u dt).x
      = Dbl.fin (updateState_next M p getSlipAngle s u dt).x ∧
    (updateState_next_checked M p getSlipAngle s u dt).y
      = Dbl.fin (updateState_next M p getSlipAngle s u dt).y ∧
    (updateState_next_checked M p getSlipAngle s u dt).yaw
      = Dbl.fin (updateState_next M p getSlipAngle s u dt).yaw ∧
    (updateState_next_checked M p getSlipAngle s u dt).a_x
      = Dbl.fin (updateState_next M p getSlipAngle s u dt).a_x ∧
    (updateState_next_checked M p getSlipAngle s u dt).a_y
      = Dbl.fin (updateState_next M p getSlipAngle s u dt).a_y := by
  refine ⟨?_, ?_, ?_, ?_, ?_⟩ <;>
    simp only [updateState_next_checked, updateState_next, f_kin_correction_checked,
      f_kin_correction, f_checked, f, State.add_checked, State.mul_checked, State.add,
      State.mul, State.fin, Dbl.fin_add_fin, Dbl.fin_mul_fin]

/-- With `m + m_lon_add ≠ 0` the `v_x` computed by `updateState` is finite. -/
lemma updateState_next_checked_v_x (M : CMath K) (p : Param K) (getSlipAngle : Bool → K)
    (s : State K) (u : Input K) (dt : K)
    (hmlon : p.inertia.m + p.driveTrain.m_lon_add ≠ 0) :
    (updateState_next_checked M p getSlipAngle s u dt).v_x
      = Dbl.fin (updateState_next M p getSlipAngle s u dt).v_x := by
  simp only [updateState_next_checked, updateState_next, f_kin_correction_checked,
    f_kin_correction, f_checked, f, State.add_checked, State.mul_checked, State.add,
    State.mul, State.fin, Dbl.fin_div_of_ne _ hmlon, Dbl.fin_add_fin, Dbl.fin_mul_fin]

/-- With `m`, `m + m_lon_add` and `l` different from 0 the `v_y` computed by
`updateState` is finite. -/
lemma updateState_next_checked_v_y (M : CMath K) (p : Param K) (getSlipAngle : Bool → K)
    (s : State K) (u : Input K) (dt : K)
    (hm : p.inertia.m ≠ 0) (hmlon : p.inertia.m + p.driveTrain.m_lon_add ≠ 0)
    (hl : p.kinematic.l ≠ 0) :
    (updateState_next_checked M p getSlipAngle s u dt).v_y
      = Dbl.fin (updateState_next M p getSlipAngle s u dt).v_y := by
  simp only [updateState_next_checked, updateState_next, f_kin_correction_checked,
    f_kin_correction, f_checked, f, State.add_checked, State.mul_checked, State.add,
    State.mul, State.fin, Dbl.fin_div_of_ne _ hmlon, Dbl.fin_div_of_ne _ hm,
    Dbl.fin_div_of_ne _ hl, Dbl.fin_add_fin, Dbl.fin_sub_fin, Dbl.fin_mul_fin]

/-- With `I_z`, `m + m_lon_add` and `l` different from 0 the `r` computed by
`updateState` is finite. -/
lemma updateState_next_checked_r (M : CMath K) (p : Param K) (getSlipAngle : Bool → K)
    (s : State K) (u : Input K) (dt : K)
    (hI : p.inertia.I_z ≠ 0) (hmlon : p.inertia.m + p.driveTrain.m_lon_add ≠ 0)
    (hl : p.kinematic.l ≠ 0) :
    (updateState_next_checked M p getSlipAngle s u dt).r
      = Dbl.fin (updateState_next M p getSlipAngle s u dt).r := by
  simp only [updateState_next_checked, updateState_next, f_kin_correction_checked,
    f_kin_correction, f_checked, f, State.add_checked, State.mul_checked, State.add,
    State.mul, State.fin, Dbl.fin_div_of_ne _ hmlon, Dbl.fin_div_of_ne _ hI,
    Dbl.fin_div_of_ne _ hl, Dbl.fin_add_fin, Dbl.fin_mul_fin]

/-- With `l = 0` the `v_y` and `r` returned by `f_kin_correction` are not
finite, whatever the other arguments are. -/
lemma f_kin_correction_checked_zero_l (M : CMath K) (p : Param K) (state_ : State K)
    (x_in : State (Dbl K)) (x_state : State K) (u : Input K) (Fx M_TV dt : K)
    (hl : p.kinematic.l = 0) :
    (f_kin_correction_checked M p state_ x_in x_state u Fx M_TV dt).v_y = Dbl.nonfin ∧
    (f_kin_correction_checked M p state_ x_in x_state u Fx M_TV dt).r = Dbl.nonfin := by
  constructor <;>
    simp only [f_kin_correction_checked, hl, Dbl.div_zero, Dbl.mul_nonfin, Dbl.add_nonfin]

/-- With `m = 0` the `v_y` computed by `updateState` is not finite: `v_y_dot`
is a quotient by `0.0`. -/
lemma updateState_next_checked_zero_m (M : CMath K) (p : Param K) (getSlipAngle : Bool → K)
    (s : State K) (u : Input K) (dt : K) (hm : p.inertia.m = 0) :
    (updateState_next_checked M p getSlipAngle s u dt).v_y = Dbl.nonfin := by
  simp only [updateState_next_checked, f_kin_correction_checked, f_checked,
    State.add_checked, State.mul_checked, State.fin, hm, Dbl.div_zero, Dbl.nonfin_sub,
    Dbl.nonfin_mul, Dbl.add_nonfin, Dbl.mul_nonfin, Dbl.nonfin_add]

/-- With `m + m_lon_add = 0` the `v_x` computed by `updateState` is not finite:
`v_x_dot` is a quotient by `0.0`. -/
lemma updateState_next_checked_zero_m_lon (M : CMath K) (p : Param K)
    (getSlipAngle : Bool → K) (s : State K) (u : Input K) (dt : K)
    (hmlon : p.inertia.m + p.driveTrain.m_lon_add = 0) :
    (updateState_next_checked M p getSlipAngle s u dt).v_x = Dbl.nonfin := by
  simp only [updateState_next_checked, f_kin_correction_checked, f_checked,
    State.add_checked, State.mul_checked, State.fin, hmlon, Dbl.div_zero,
    Dbl.nonfin_mul, Dbl.add_nonfin, Dbl.mul_nonfin, Dbl.nonfin_add]

end CheckedLemmas

/-! ## Claims -/

section Claims

variable {K : Type} [LinearOrderedField K]

/-- C1 as stated fails at a parameter set with wheelbase `l = 0`: the pre-step
speed is `hypot(4, 3) = 5 ≥ 3.5` and the Euler-stepped state is finite
(`v_y = 2.9`, `r = 0.25`), but the kinematic side `tan(delta)·v_x·l_R / 0.0` is
not finite and its product with the weight `0.0` is NaN, so the returned `v_y`
and `r` are NaN, not those of `x_in`. -/
theorem f_kin_correction_high_speed_zero_l :
    (3.5 : ℝ) ≤ Real.sqrt (4 * 4 + 3 * 3) ∧
    (f_kin_correction_checked (⟨Real.sin, Real.cos, Real.tan, Real.arctan,
        fun a b => Real.sqrt (a * a + b * b)⟩ : CMath ℝ)
      { carParam with kinematic := ⟨0, 1.22, 0.5, 0.75, 0.75⟩ }
      ⟨0, 0, 0, 4, 3, 0.2, 0, 0⟩ (State.fin ⟨0.04, 0.03, 0.002, 4.1, 2.9, 0.25, 0, 0⟩)
      ⟨0, 0, 0, 4, 3, 0.2, 0, 0⟩ ⟨0.1, 0.3⟩ 1000 0 0.01).v_y = Dbl.nonfin ∧
    (f_kin_correction_checked (⟨Real.sin, Real.cos, Real.tan, Real.arctan,
        fun a b => Real.sqrt (a * a + b * b)⟩ : CMath ℝ)
      { carParam with kinematic := ⟨0, 1.22, 0.5, 0.75, 0.75⟩ }
      ⟨0, 0, 0, 4, 3, 0.2, 0, 0⟩ (State.fin ⟨0.04, 0.03, 0.002, 4.1, 2.9, 0.25, 0, 0⟩)
      ⟨0, 0, 0, 4, 3, 0.2, 0, 0⟩ ⟨0.1, 0.3⟩ 1000 0 0.01).v_y ≠ Dbl.fin 2.9 ∧
    (f_kin_correction_checked (⟨Real.sin, Real.cos, Real.tan, Real.arctan,
        fun a b => Real.sqrt (a * a + b * b)⟩ : CMath ℝ)
      { carParam with kinematic := ⟨0, 1.22, 0.5, 0.75, 0.75⟩ }
      ⟨0, 0, 0, 4, 3, 0.2, 0, 0⟩ (State.fin ⟨0.04, 0.03, 0.002, 4.1, 2.9, 0.25, 0, 0⟩)
      ⟨0, 0, 0, 4, 3, 0.2, 0, 0⟩ ⟨0.1, 0.3⟩ 1000 0 0.01).r = Dbl.nonfin := by
  have h := f_kin_correction_checked_zero_l (⟨Real.sin, Real.cos, Real.tan, Real.arctan,
        fun a b => Real.sqrt (a * a + b * b)⟩ : CMath ℝ)
    { carParam with kinematic := ⟨0, 1.22, 0.5, 0.75, 0.75⟩ }
    ⟨0, 0, 0, 4, 3, 0.2, 0, 0⟩ (State.fin ⟨0.04, 0.03, 0.002, 4.1, 2.9, 0.25, 0, 0⟩)
    ⟨0, 0, 0, 4, 3, 0.2, 0, 0⟩ ⟨0.1, 0.3⟩ 1000 0 0.01 rfl
  refine ⟨?_, h.1, ?_, h.2⟩
  · apply Real.le_sqrt_of_sq_le
    norm_num
  · rw [h.1]
    exact fun hEq => Dbl.noConfusion hEq

/-- C1 (high-speed convergence), amended: when the speed `hypot(v_x, v_y)` of
the pre-step state is at least 3.5, for every input, `dt`, `Fx`, every finite
Euler-stepped state `x_in` and every parameter set with `l ≠ 0` and
`m + m_lon_add ≠ 0`, `f_kin_correction` computes the blend factor 1 and
returns `v_x`, `v_y` and `r` of `x_in` unchanged (and finite). -/
theorem f_kin_correction_high_speed (M : CMath K) (p : Param K)
    (state_ x_in x_state : State K) (u : Input K) (Fx M_TV dt : K)
    (h : 3.5 ≤ M.hypot state_.v_x state_.v_y)
    (hl : p.kinematic.l ≠ 0) (hmlon : p.inertia.m + p.driveTrain.m_lon_add ≠ 0) :
    f_kin_blend M state_ = 1 ∧
    (f_kin_correction_checked M p state_ (State.fin x_in) x_state u Fx M_TV dt).v_x
      = Dbl.fin x_in.v_x ∧
    (f_kin_correction_checked M p state_ (State.fin x_in) x_state u Fx M_TV dt).v_y
      = Dbl.fin x_in.v_y ∧
    (f_kin_correction_checked M p state_ (State.fin x_in) x_state u Fx M_TV dt).r
      = Dbl.fin x_in.r := by
  have hf := f_kin_correction_high_speed_field M p state_ x_in x_state u Fx M_TV dt h
  rw [f_kin_correction_checked_fin M p state_ x_in x_state u Fx M_TV dt hl hmlon]
  exact ⟨hf.1, congrArg Dbl.fin hf.2.1, congrArg Dbl.fin hf.2.2.1, congrArg Dbl.fin hf.2.2.2⟩

/-- Witness for C1 on `ℝ` with the real `hypot`: `carParam` (`l = 1.5`,
`m + m_lon_add = 200`), pre-step `v_x = 4`, `v_y = 3` (speed 5), Euler-stepped
`v_x = 4.1`, `v_y = 2.9`, `r = 0.25`. -/
theorem f_kin_correction_high_speed_witness :
    (f_kin_correction_checked (⟨Real.sin, Real.cos, Real.tan, Real.arctan,
        fun a b => Real.sqrt (a * a + b * b)⟩ : CMath ℝ) carParam
      ⟨0, 0, 0, 4, 3, 0.2, 0, 0⟩ (State.fin ⟨0.04, 0.03, 0.002, 4.1, 2.9, 0.25, 0, 0⟩)
      ⟨0, 0, 0, 4, 3, 0.2, 0, 0⟩ ⟨0.1, 0.3⟩ 1000 0 0.01).v_x = Dbl.fin 4.1 ∧
    (f_kin_correction_checked (⟨Real.sin, Real.cos, Real.tan, Real.arctan,
        fun a b => Real.sqrt (a * a + b * b)⟩ : CMath ℝ) carParam
      ⟨0, 0, 0, 4, 3, 0.2, 0, 0⟩ (State.fin ⟨0.04, 0.03, 0.002, 4.1, 2.9, 0.25, 0, 0⟩)
      ⟨0, 0, 0, 4, 3, 0.2, 0, 0⟩ ⟨0.1, 0.3⟩ 1000 0 0.01).v_y = Dbl.fin 2.9 ∧
    (f_kin_correction_checked (⟨Real.sin, Real.cos, Real.tan, Real.arctan,
        fun a b => Real.sqrt (a * a + b * b)⟩ : CMath ℝ) carParam
      ⟨0, 0, 0, 4, 3, 0.2, 0, 0⟩ (State.fin ⟨0.04, 0.03, 0.002, 4.1, 2.9, 0.25, 0, 0⟩)
      ⟨0, 0, 0, 4, 3, 0.2, 0, 0⟩ ⟨0.1, 0.3⟩ 1000 0 0.01).r = Dbl.fin 0.25 :=
  (f_kin_correction_high_speed (⟨Real.sin, Real.cos, Real.tan, Real.arctan,
        fun a b => Real.sqrt (a * a + b * b)⟩ : CMath ℝ) carParam
    ⟨0, 0, 0, 4, 3, 0.2, 0, 0⟩ ⟨0.04, 0.03, 0.002, 4.1, 2.9, 0.25, 0, 0⟩
    ⟨0, 0, 0, 4, 3, 0.2, 0, 0⟩ ⟨0.1, 0.3⟩ 1000 0 0.01
    (by show (3.5 : ℝ) ≤ Real.sqrt (4 * 4 + 3 * 3)
        apply Real.le_sqrt_of_sq_le
        norm_num)
    (by norm_num [carParam]) (by norm_num [carParam])).2

/-- C2 as stated fails: at standstill with zero input the constant rolling
resistance `cr0` still enters `Fx = −cr0`. With `carParam` (`cr0 = 180`,
`m + m_lon_add = 200`), slip angles 0 and `dt = 1`, the state computed by
`updateState` has `v_x = −0.9`, not the pre-step value 0. -/
theorem updateState_zero_input_moves :
    (updateState_next
        (⟨Real.sin, Real.cos, Real.tan, Real.arctan,
          fun a b => Real.sqrt (a * a + b * b)⟩ : CMath ℝ)
        carParam (fun _ => 0) ⟨0, 0, 0, 0, 0, 0, 0, 0⟩ ⟨0, 0⟩ 1).v_x = -0.9 ∧
    (updateState_next
        (⟨Real.sin, Real.cos, Real.tan, Real.arctan,
          fun a b => Real.sqrt (a * a + b * b)⟩ : CMath ℝ)
        carParam (fun _ => 0) ⟨0, 0, 0, 0, 0, 0, 0, 0⟩ ⟨0, 0⟩ 1).v_x
      ≠ (⟨0, 0, 0, 0, 0, 0, 0, 0⟩ : State ℝ).v_x := by
  have h : (updateState_next
        (⟨Real.sin, Real.cos, Real.tan, Real.arctan,
          fun a b => Real.sqrt (a * a + b * b)⟩ : CMath ℝ)
        carParam (fun _ => 0) ⟨0, 0, 0, 0, 0, 0, 0, 0⟩ ⟨0, 0⟩ 1).v_x = -0.9 := by
    norm_num [updateState_next, f_kin_correction, f_kin_blend, f, getFrontFy, getRearFy,
      getFx, getMTv, getFdrag, State.add, State.mul, carParam]
  refine ⟨h, ?_⟩
  rw [h]
  norm_num

/-- C2 (zero-input stationarity), amended: if the pre-step state has
`v_x = v_y = r = 0`, the input has `dc = 0` and `delta = 0` and both slip
angles are 0, then for every `dt` and every parameter set with `m`, `I_z`,
`m + m_lon_add` and `l` different from 0, the state computed by `updateState`
(derivative `f`, Euler step, `f_kin_correction`) has `v_y`, `r`, `a_x` and
`a_y` equal to their pre-step values, and `v_x = dt·(−cr0)/(m + m_lon_add)`:
it keeps its pre-step value 0 exactly when that product is 0, in particular
when `cr0 = 0`. The facts used about `<cmath>` are `sin 0 = 0`, `atan 0 = 0`
and `tan 0 = 0`. -/
theorem updateState_zero_input (M : CMath K) (p : Param K) (getSlipAngle : Bool → K)
    (s : State K) (u : Input K) (dt : K)
    (hvx : s.v_x = 0) (hvy : s.v_y = 0) (hr : s.r = 0)
    (hdc : u.dc = 0) (hdelta : u.delta = 0)
    (haF : getSlipAngle true = 0) (haR : getSlipAngle false = 0)
    (hsin : M.sin 0 = 0) (hatan : M.atan 0 = 0) (htan : M.tan 0 = 0)
    (hm : p.inertia.m ≠ 0) (hI : p.inertia.I_z ≠ 0)
    (hmlon : p.inertia.m + p.driveTrain.m_lon_add ≠ 0) (hl : p.kinematic.l ≠ 0) :
    (updateState_next_checked M p getSlipAngle s u dt).v_x
      = Dbl.fin (dt * (-p.driveTrain.cr0 / (p.inertia.m + p.driveTrain.m_lon_add))) ∧
    (p.driveTrain.cr0 = 0 →
      (updateState_next_checked M p getSlipAngle s u dt).v_x = Dbl.fin s.v_x) ∧
    (updateState_next_checked M p getSlipAngle s u dt).v_y = Dbl.fin s.v_y ∧
    (updateState_next_checked M p getSlipAngle s u dt).r = Dbl.fin s.r ∧
    (updateState_next_checked M p getSlipAngle s u dt).a_x = Dbl.fin s.a_x ∧
    (updateState_next_checked M p getSlipAngle s u dt).a_y = Dbl.fin s.a_y := by
  have hf := updateState_zero_input_field M p getSlipAngle s u dt hvx hvy hr hdc hdelta
    haF haR hsin hatan htan
  have hfr := updateState_next_checked_frame M p getSlipAngle s u dt
  rw [updateState_next_checked_v_x M p getSlipAngle s u dt hmlon,
    updateState_next_checked_v_y M p getSlipAngle s u dt hm hmlon hl,
    updateState_next_checked_r M p getSlipAngle s u dt hI hmlon hl,
    hfr.2.2.2.1, hfr.2.2.2.2]
  exact ⟨congrArg Dbl.fin hf.1, fun hcr => congrArg Dbl.fin (hf.2.1 hcr),
    congrArg Dbl.fin hf.2.2.1, congrArg Dbl.fin hf.2.2.2.1,
    congrArg Dbl.fin hf.2.2.2.2.1, congrArg Dbl.fin hf.2.2.2.2.2⟩

/-- Witness for C2 on `ℝ` with the real `sin`, `arctan`, `tan`: the car of
`carParam` at rest at `(3, 4)`, heading 1, with `dt = 0.01`. -/
theorem updateState_zero_input_witness :
    (updateState_next_checked (⟨Real.sin, Real.cos, Real.tan, Real.arctan,
        fun a b => Real.sqrt (a * a + b * b)⟩ : CMath ℝ)
        carParam (fun _ => 0) ⟨3, 4, 1, 0, 0, 0, 0, 0⟩ ⟨0, 0⟩ 0.01).v_x
      = Dbl.fin (0.01 * (-(carParam : Param ℝ).driveTrain.cr0
          / ((carParam : Param ℝ).inertia.m + (carParam : Param ℝ).driveTrain.m_lon_add))) ∧
    (updateState_next_checked (⟨Real.sin, Real.cos, Real.tan, Real.arctan,
        fun a b => Real.sqrt (a * a + b * b)⟩ : CMath ℝ)
        carParam (fun _ => 0) ⟨3, 4, 1, 0, 0, 0, 0, 0⟩ ⟨0, 0⟩ 0.01).v_y = Dbl.fin 0 ∧
    (updateState_next_checked (⟨Real.sin, Real.cos, Real.tan, Real.arctan,
        fun a b => Real.sqrt (a * a + b * b)⟩ : CMath ℝ)
        carParam (fun _ => 0) ⟨3, 4, 1, 0, 0, 0, 0, 0⟩ ⟨0, 0⟩ 0.01).r = Dbl.fin 0 :=
  have h := updateState_zero_input (⟨Real.sin, Real.cos, Real.tan, Real.arctan,
        fun a b => Real.sqrt (a * a + b * b)⟩ : CMath ℝ)
    carParam (fun _ => 0) ⟨3, 4, 1, 0, 0, 0, 0, 0⟩ ⟨0, 0⟩ 0.01
    rfl rfl rfl rfl rfl rfl rfl Real.sin_zero Real.arctan_zero Real.tan_zero
    (by norm_num [carParam]) (by norm_num [carParam]) (by norm_num [carParam])
    (by norm_num [carParam])
  ⟨h.1, h.2.2.1, h.2.2.2.1⟩

/-- C3 as stated fails: the kinematic `v_y` and `r` are computed from the
already blended `v_x`, not from `v_x_kin`. Pre-step speed `hypot(2, 1.5) = 2.5`
gives blend 0.5; with `tan(delta) = 1`, `l_R/l = 0.5`, `Fx = 0`, `dt = 1`
(`v_x_kin = 2`) and Euler-stepped `v_x = 4`, `v_y = 0`, `r = 0`, the blended
`v_x` is 3 and the code returns `v_y = 0.75`, `r = 1`, where the stated formula
gives `0.5` and `2/3`. -/
theorem f_kin_correction_not_v_x_kin :
    f_kin_blend (⟨Real.sin, Real.cos, Real.tan, Real.arctan,
        fun a b => Real.sqrt (a * a + b * b)⟩ : CMath ℝ) ⟨0, 0, 0, 2, 1.5, 0, 0, 0⟩ = 0.5 ∧
    (f_kin_correction (⟨Real.sin, Real.cos, Real.tan, Real.arctan,
        fun a b => Real.sqrt (a * a + b * b)⟩ : CMath ℝ) carParam
      ⟨0, 0, 0, 2, 1.5, 0, 0, 0⟩ ⟨0, 0, 0, 4, 0, 0, 0, 0⟩ ⟨0, 0, 0, 2, 1.5, 0, 0, 0⟩
      ⟨Real.arctan 1, 0⟩ 0 0 1).v_y = 0.75 ∧
    (0.5 * 0 + (1 - 0.5) * Real.tan (Real.arctan 1) * (2 + 1 * 0 / (190 + 10)) * 0.75 / 1.5
      : ℝ) = 0.5 ∧
    (f_kin_correction (⟨Real.sin, Real.cos, Real.tan, Real.arctan,
        fun a b => Real.sqrt (a * a + b * b)⟩ : CMath ℝ) carParam
      ⟨0, 0, 0, 2, 1.5, 0, 0, 0⟩ ⟨0, 0, 0, 4, 0, 0, 0, 0⟩ ⟨0, 0, 0, 2, 1.5, 0, 0, 0⟩
      ⟨Real.arctan 1, 0⟩ 0 0 1).r = 1 ∧
    (0.5 * 0 + (1 - 0.5) * Real.tan (Real.arctan 1) * (2 + 1 * 0 / (190 + 10)) / 1.5
      : ℝ) = 2 / 3 := by
  have hs : Real.sqrt (2 * 2 + 1.5 * 1.5) = 2.5 := by
    rw [show (2 * 2 + 1.5 * 1.5 : ℝ) = 2.5 * 2.5 by norm_num]
    exact Real.sqrt_mul_self (by norm_num)
  have hb : f_kin_blend (⟨Real.sin, Real.cos, Real.tan, Real.arctan,
      fun a b => Real.sqrt (a * a + b * b)⟩ : CMath ℝ) ⟨0, 0, 0, 2, 1.5, 0, 0, 0⟩ = 0.5 := by
    simp only [f_kin_blend, hs]
    norm_num
  refine ⟨hb, ?_, ?_, ?_, ?_⟩
  · simp only [f_kin_correction, hb, Real.tan_arctan, carParam]
    norm_num
  · rw [Real.tan_arctan]
    norm_num
  · simp only [f_kin_correction, hb, Real.tan_arctan, carParam]
    norm_num
  · rw [Real.tan_arctan]
    norm_num

/-- C3 (kinematic blend of `v_y` and `r`), amended: for every pre-step state,
input, `dt`, `Fx` and Euler-stepped state, with `blend` the blend factor
(always in `[0, 1]`), the final `v_x` is
`blend·v_x_dyn + (1−blend)·(v_x(pre) + dt·Fx/m_lon)`, the final `v_y` is
`blend·v_y_dyn + (1−blend)·tan(delta)·v_x'·l_R/l` and the final `r` is
`blend·r_dyn + (1−blend)·tan(delta)·v_x'/l`, where `v_x'` is the final
(blended) `v_x`, not the purely kinematic one. -/
theorem f_kin_correction_blend (M : CMath K) (p : Param K)
    (state_ x_in x_state : State K) (u : Input K) (Fx M_TV dt : K) :
    0 ≤ f_kin_blend M state_ ∧ f_kin_blend M state_ ≤ 1 ∧
    (f_kin_correction M p state_ x_in x_state u Fx M_TV dt).v_x
      = f_kin_blend M state_ * x_in.v_x
        + (1 - f_kin_blend M state_)
          * (x_state.v_x + dt * Fx / (p.inertia.m + p.driveTrain.m_lon_add)) ∧
    (f_kin_correction M p state_ x_in x_state u Fx M_TV dt).v_y
      = f_kin_blend M state_ * x_in.v_y
        + (1 - f_kin_blend M state_)
          * (M.tan u.delta * (f_kin_correction M p state_ x_in x_state u Fx M_TV dt).v_x
              * p.kinematic.l_R / p.kinematic.l) ∧
    (f_kin_correction M p state_ x_in x_state u Fx M_TV dt).r
      = f_kin_blend M state_ * x_in.r
        + (1 - f_kin_blend M state_)
          * (M.tan u.delta * (f_kin_correction M p state_ x_in x_state u Fx M_TV dt).v_x
              / p.kinematic.l) := by
  refine ⟨f_kin_blend_nonneg M state_, f_kin_blend_le_one M state_, ?_, ?_, ?_⟩
  · simp only [f_kin_correction, lit_one]
    ring
  · simp only [f_kin_correction, lit_one]
  · simp only [f_kin_correction, lit_one]

/-- C5 (drivetrain clamp): with `v_x ≤ 0` and `dc < 0`, `getFx` returns
`−c_drag·v_x² − cr0`, whatever `dc` and `cm1` are; in every other case it
returns `dc·cm1 − c_drag·v_x² − cr0`. -/
theorem getFx_clamp (p : Param K) (x : State K) (u : Input K) :
    (x.v_x ≤ 0 ∧ u.dc < 0 →
      getFx p x u = -(p.aero.c_drag * x.v_x ^ 2) - p.driveTrain.cr0) ∧
    (¬ (x.v_x ≤ 0 ∧ u.dc < 0) →
      getFx p x u = u.dc * p.driveTrain.cm1 - p.aero.c_drag * x.v_x ^ 2 - p.driveTrain.cr0) := by
  constructor
  · intro h
    have h' : x.v_x ≤ 0.0 ∧ u.dc < 0.0 := by norm_num; exact h
    simp only [getFx, getFdrag, if_pos h']
    norm_num
    ring
  · intro h
    have h' : ¬ (x.v_x ≤ 0.0 ∧ u.dc < 0.0) := by norm_num; simpa using h
    simp only [getFx, getFdrag, if_neg h']
    ring

/-- Witness for C5 on `ℚ`: rolling backwards (`v_x = −2`) with `dc = −1/2`
gives `−0.7·4 − 180`; rolling forwards (`v_x = 2`) with the same `dc` gives
`−2500 − 0.7·4 − 180`. -/
theorem getFx_clamp_witness :
    getFx (carParam : Param ℚ)
      ⟨0, 0, 0, -2, 0, 0, 0, 0⟩ ⟨0, -1/2⟩ = -(0.7 * (-2) ^ 2) - 180 ∧
    getFx (carParam : Param ℚ)
      ⟨0, 0, 0, 2, 0, 0, 0, 0⟩ ⟨0, -1/2⟩ = -1/2 * 5000 - 0.7 * 2 ^ 2 - 180 :=
  ⟨((getFx_clamp _ _ _).1 ⟨by norm_num, by norm_num⟩).trans (by norm_num [carParam]),
   ((getFx_clamp _ _ _).2 (by norm_num)).trans (by norm_num [carParam])⟩

/-- C6 as stated fails: with motor gain `cm1 = 0` the force at `dc = 1` equals
the force at `dc = 0` (both are `−0.7·9 − 180`), so it is not strictly
greater. -/
theorem getFx_throttle_not_strict :
    ¬ (getFx ({ carParam with driveTrain := ⟨0, 180, 10⟩ } : Param ℚ)
        ⟨0, 0, 0, 3, 0, 0, 0, 0⟩ ⟨0, 0⟩
      < getFx ({ carParam with driveTrain := ⟨0, 180, 10⟩ } : Param ℚ)
        ⟨0, 0, 0, 3, 0, 0, 0, 0⟩ ⟨0, 1⟩) := by
  norm_num [getFx, getFdrag, carParam]

/-- C6 (throttle saturation sign), amended: for every state, every steering
angle and every parameter set whose motor gain `cm1` is positive, `getFx` with
`dc = 1` is strictly greater than `getFx` with `dc = 0`; the difference is
exactly `cm1`. -/
theorem getFx_throttle_strict (p : Param K) (x : State K) (delta : K)
    (hcm1 : 0 < p.driveTrain.cm1) :
    getFx p x ⟨delta, 1⟩ = getFx p x ⟨delta, 0⟩ + p.driveTrain.cm1 ∧
    getFx p x ⟨delta, 0⟩ < getFx p x ⟨delta, 1⟩ := by
  have h : getFx p x ⟨delta, 1⟩ = getFx p x ⟨delta, 0⟩ + p.driveTrain.cm1 := by
    norm_num [getFx, getFdrag]
    ring
  exact ⟨h, by rw [h]; linarith⟩

/-- Witness for C6 on `ℚ`: `cm1 = 5000`, `v_x = 3`. -/
theorem getFx_throttle_strict_witness :
    getFx (carParam : Param ℚ)
      ⟨0, 0, 0, 3, 0, 0, 0, 0⟩ ⟨0, 0⟩
    < getFx (carParam : Param ℚ)
      ⟨0, 0, 0, 3, 0, 0, 0, 0⟩ ⟨0, 1⟩ :=
  (getFx_throttle_strict _ _ 0 (by norm_num [carParam])).2

/-- C7 as stated fails when the axle load is negative: with `w_front = 0.5` and
`Fz = −8` the axle load `getDownForceFront(Fz)` is `−2`, so `|D|·Fz_axle = −3.2`
is below `|Fy| ≥ 0`, for the front and for the rear force. -/
theorem tire_force_bound_fails_negative_load :
    getDownForceFront (carParam : Param ℝ) (-8) = -2 ∧
    ¬ (|getFrontFy (⟨Real.sin, Real.cos, Real.tan, Real.arctan,
          fun a b => Real.sqrt (a * a + b * b)⟩ : CMath ℝ) carParam (fun _ => 0.1) (-8)|
        ≤ |(carParam : Param ℝ).tire.D| * getDownForceFront (carParam : Param ℝ) (-8)) ∧
    ¬ (|getRearFy (⟨Real.sin, Real.cos, Real.tan, Real.arctan,
          fun a b => Real.sqrt (a * a + b * b)⟩ : CMath ℝ) carParam (fun _ => 0.1) (-8)|
        ≤ |(carParam : Param ℝ).tire.D| * getDownForceFront (carParam : Param ℝ) (-8)) := by
  have hL : getDownForceFront (carParam : Param ℝ) (-8) = -2 := by
    norm_num [getDownForceFront, carParam]
  have hD : |(carParam : Param ℝ).tire.D| = 1.6 := by
    norm_num [carParam, abs_of_pos]
  refine ⟨hL, ?_, ?_⟩
  · rw [hL, hD, not_le]
    exact lt_of_lt_of_le (by norm_num) (abs_nonneg _)
  · rw [hL, hD, not_le]
    exact lt_of_lt_of_le (by norm_num) (abs_nonneg _)

/-- C7 (tire curve boundedness), amended: for every slip angle, every normal
load `Fz` and every parameter set, the lateral force returned by `getFrontFy`
and by `getRearFy` satisfies `|Fy| ≤ |D|·|Fz_axle|` with
`Fz_axle = getDownForceFront(Fz)`; hence `|Fy| ≤ |D|·Fz_axle` whenever that
axle load is not negative. The fact used about `<cmath>` is `|sin t| ≤ 1`. -/
theorem tire_force_bounded (M : CMath K) (p : Param K) (getSlipAngle : Bool → K) (Fz : K)
    (hsin : ∀ t, |M.sin t| ≤ 1) :
    |getFrontFy M p getSlipAngle Fz| ≤ |p.tire.D| * |getDownForceFront p Fz| ∧
    |getRearFy M p getSlipAngle Fz| ≤ |p.tire.D| * |getDownForceFront p Fz| ∧
    (0 ≤ getDownForceFront p Fz →
      |getFrontFy M p getSlipAngle Fz| ≤ |p.tire.D| * getDownForceFront p Fz ∧
      |getRearFy M p getSlipAngle Fz| ≤ |p.tire.D| * getDownForceFront p Fz) := by
  have hF : |getFrontFy M p getSlipAngle Fz| ≤ |p.tire.D| * |getDownForceFront p Fz| := by
    simp only [getFrontFy]
    exact tire_curve_abs_le M hsin _ _ _
  have hR : |getRearFy M p getSlipAngle Fz| ≤ |p.tire.D| * |getDownForceFront p Fz| := by
    simp only [getRearFy]
    exact tire_curve_abs_le M hsin _ _ _
  refine ⟨hF, hR, fun h0 => ?_⟩
  rw [abs_of_nonneg h0] at hF hR
  exact ⟨hF, hR⟩

/-- Witness for C7 on `ℝ` with the real `sin`: `carParam`, slip angles 0.1
(front) and −0.2 (rear), `Fz = 2000` (axle load 500). -/
theorem tire_force_bounded_witness :
    |getFrontFy (⟨Real.sin, Real.cos, Real.tan, Real.arctan,
        fun a b => Real.sqrt (a * a + b * b)⟩ : CMath ℝ) carParam
        (fun isFront => if isFront then 0.1 else -0.2) 2000|
      ≤ |(carParam : Param ℝ).tire.D| * getDownForceFront (carParam : Param ℝ) 2000 ∧
    |getRearFy (⟨Real.sin, Real.cos, Real.tan, Real.arctan,
        fun a b => Real.sqrt (a * a + b * b)⟩ : CMath ℝ) carParam
        (fun isFront => if isFront then 0.1 else -0.2) 2000|
      ≤ |(carParam : Param ℝ).tire.D| * getDownForceFront (carParam : Param ℝ) 2000 :=
  (tire_force_bounded (⟨Real.sin, Real.cos, Real.tan, Real.arctan,
      fun a b => Real.sqrt (a * a + b * b)⟩ : CMath ℝ) carParam
    (fun isFront => if isFront then 0.1 else -0.2) 2000 Real.abs_sin_le_one).2.2
    (by norm_num [getDownForceFront, carParam])

/-- C8 as stated fails at a parameter set with mass `m = 0`: in the scenario
(`v_x = 5`, `v_y = 0`, `r = 0`, `yaw = 0`, `delta = 0`, `dc = 0.3`, `dt = 0.01`,
slip angles 0) the lateral derivative is `(cos(0)·0 + 0) / 0.0`, which is NaN,
so the computed `v_y` is NaN, not the pre-step value 0. -/
theorem updateState_straight_line_zero_mass :
    (updateState_next_checked (⟨Real.sin, Real.cos, Real.tan, Real.arctan,
        fun a b => Real.sqrt (a * a + b * b)⟩ : CMath ℝ)
      { carParam with inertia := ⟨0, 9.81, 110⟩ } (fun _ => 0)
      ⟨0, 0, 0, 5, 0, 0, 0, 0⟩ ⟨0, 0.3⟩ 0.01).v_y = Dbl.nonfin ∧
    (updateState_next_checked (⟨Real.sin, Real.cos, Real.tan, Real.arctan,
        fun a b => Real.sqrt (a * a + b * b)⟩ : CMath ℝ)
      { carParam with inertia := ⟨0, 9.81, 110⟩ } (fun _ => 0)
      ⟨0, 0, 0, 5, 0, 0, 0, 0⟩ ⟨0, 0.3⟩ 0.01).v_y ≠ Dbl.fin 0 := by
  have h := updateState_next_checked_zero_m (⟨Real.sin, Real.cos, Real.tan, Real.arctan,
        fun a b => Real.sqrt (a * a + b * b)⟩ : CMath ℝ)
    { carParam with inertia := ⟨0, 9.81, 110⟩ } (fun _ => 0)
    ⟨0, 0, 0, 5, 0, 0, 0, 0⟩ ⟨0, 0.3⟩ 0.01 rfl
  refine ⟨h, ?_⟩
  rw [h]
  exact fun hEq => Dbl.noConfusion hEq

/-- C8 (straight-line acceleration), amended: for every pre-step state with
`v_y = 0`, `r = 0` and `v_x ≥ 3.5`, every input with `delta = 0`, slip angles
0, every `dt` and every parameter set with `m`, `I_z`, `m + m_lon_add` and `l`
different from 0, the state computed by `updateState` has `yaw`, `v_y` and `r`
unchanged and `v_x` equal to `v_x + dt·Fx/m_lon` with
`Fx = getFx(state, input)` and `m_lon = m + m_lon_add`; the spec's scenario is
the case `v_x = 5`, `yaw = 0`, `dc = 0.3`, `dt = 0.01`. The facts used about
`<cmath>` are `sin 0 = 0`, `atan 0 = 0` and `hypot(a, 0) = |a|`. -/
theorem updateState_straight_line (M : CMath K) (p : Param K) (getSlipAngle : Bool → K)
    (s : State K) (u : Input K) (dt : K)
    (hvy : s.v_y = 0) (hr : s.r = 0) (hvx : 3.5 ≤ s.v_x) (hdelta : u.delta = 0)
    (haF : getSlipAngle true = 0) (haR : getSlipAngle false = 0)
    (hsin : M.sin 0 = 0) (hatan : M.atan 0 = 0) (hhyp : ∀ a, M.hypot a 0 = |a|)
    (hm : p.inertia.m ≠ 0) (hI : p.inertia.I_z ≠ 0)
    (hmlon : p.inertia.m + p.driveTrain.m_lon_add ≠ 0) (hl : p.kinematic.l ≠ 0) :
    (updateState_next_checked M p getSlipAngle s u dt).yaw = Dbl.fin s.yaw ∧
    (updateState_next_checked M p getSlipAngle s u dt).v_y = Dbl.fin s.v_y ∧
    (updateState_next_checked M p getSlipAngle s u dt).r = Dbl.fin s.r ∧
    (updateState_next_checked M p getSlipAngle s u dt).v_x
      = Dbl.fin (s.v_x + dt * getFx p s u / (p.inertia.m + p.driveTrain.m_lon_add)) := by
  have hf := updateState_straight_line_field M p getSlipAngle s u dt hvy hr hvx hdelta
    haF haR hsin hatan hhyp
  have hfr := updateState_next_checked_frame M p getSlipAngle s u dt
  rw [updateState_next_checked_v_x M p getSlipAngle s u dt hmlon,
    updateState_next_checked_v_y M p getSlipAngle s u dt hm hmlon hl,
    updateState_next_checked_r M p getSlipAngle s u dt hI hmlon hl,
    hfr.2.2.1]
  exact ⟨congrArg Dbl.fin hf.1, congrArg Dbl.fin hf.2.1, congrArg Dbl.fin hf.2.2.1,
    congrArg Dbl.fin hf.2.2.2⟩

/-- Witness for C8 on `ℝ` with the real `sin`, `arctan`, `hypot`: the scenario
`v_x = 5`, `v_y = 0`, `r = 0`, `yaw = 0`, `delta = 0`, `dc = 0.3`, `dt = 0.01`
with `carParam`. -/
theorem updateState_straight_line_witness :
    (updateState_next_checked (⟨Real.sin, Real.cos, Real.tan, Real.arctan,
        fun a b => Real.sqrt (a * a + b * b)⟩ : CMath ℝ) carParam (fun _ => 0)
      ⟨0, 0, 0, 5, 0, 0, 0, 0⟩ ⟨0, 0.3⟩ 0.01).yaw = Dbl.fin 0 ∧
    (updateState_next_checked (⟨Real.sin, Real.cos, Real.tan, Real.arctan,
        fun a b => Real.sqrt (a * a + b * b)⟩ : CMath ℝ) carParam (fun _ => 0)
      ⟨0, 0, 0, 5, 0, 0, 0, 0⟩ ⟨0, 0.3⟩ 0.01).v_y = Dbl.fin 0 ∧
    (updateState_next_checked (⟨Real.sin, Real.cos, Real.tan, Real.arctan,
        fun a b => Real.sqrt (a * a + b * b)⟩ : CMath ℝ) carParam (fun _ => 0)
      ⟨0, 0, 0, 5, 0, 0, 0, 0⟩ ⟨0, 0.3⟩ 0.01).r = Dbl.fin 0 ∧
    (updateState_next_checked (⟨Real.sin, Real.cos, Real.tan, Real.arctan,
        fun a b => Real.sqrt (a * a + b * b)⟩ : CMath ℝ) carParam (fun _ => 0)
      ⟨0, 0, 0, 5, 0, 0, 0, 0⟩ ⟨0, 0.3⟩ 0.01).v_x
      = Dbl.fin (5 + 0.01 * getFx (carParam : Param ℝ) ⟨0, 0, 0, 5, 0, 0, 0, 0⟩ ⟨0, 0.3⟩
          / ((carParam : Param ℝ).inertia.m + (carParam : Param ℝ).driveTrain.m_lon_add)) :=
  updateState_straight_line (⟨Real.sin, Real.cos, Real.tan, Real.arctan,
        fun a b => Real.sqrt (a * a + b * b)⟩ : CMath ℝ) carParam (fun _ => 0)
    ⟨0, 0, 0, 5, 0, 0, 0, 0⟩ ⟨0, 0.3⟩ 0.01 rfl rfl (by norm_num) rfl rfl rfl
    Real.sin_zero Real.arctan_zero
    (fun a => by simp [Real.sqrt_mul_self_eq_abs])
    (by norm_num [carParam]) (by norm_num [carParam]) (by norm_num [carParam])
    (by norm_num [carParam])

/-- C9 as stated fails: `state_` is assigned before `validate` is called. With
a `validate` that rejects a negative `v_x` and leaves the state as it is, the
car of `carParam` at rest with zero input and `dt = 1` is rejected
(`ok = false`), and the stored state afterwards has `v_x = −0.9`: it is the
newly computed state, not the pre-update state. -/
theorem updateState_overwrites_before_validate :
    (updateState (⟨Real.sin, Real.cos, Real.tan, Real.arctan,
        fun a b => Real.sqrt (a * a + b * b)⟩ : CMath ℝ) carParam (fun _ => 0)
      (fun t => ⟨t, decide (0 ≤ t.v_x)⟩) ⟨0, 0, 0, 0, 0, 0, 0, 0⟩ ⟨0, 0⟩ 1).ok = false ∧
    (updateState (⟨Real.sin, Real.cos, Real.tan, Real.arctan,
        fun a b => Real.sqrt (a * a + b * b)⟩ : CMath ℝ) carParam (fun _ => 0)
      (fun t => ⟨t, decide (0 ≤ t.v_x)⟩) ⟨0, 0, 0, 0, 0, 0, 0, 0⟩ ⟨0, 0⟩ 1).state.v_x
      = -0.9 ∧
    (updateState (⟨Real.sin, Real.cos, Real.tan, Real.arctan,
        fun a b => Real.sqrt (a * a + b * b)⟩ : CMath ℝ) carParam (fun _ => 0)
      (fun t => ⟨t, decide (0 ≤ t.v_x)⟩) ⟨0, 0, 0, 0, 0, 0, 0, 0⟩ ⟨0, 0⟩ 1).state
      ≠ ⟨0, 0, 0, 0, 0, 0, 0, 0⟩ := by
  have h : (updateState_next
        (⟨Real.sin, Real.cos, Real.tan, Real.arctan,
          fun a b => Real.sqrt (a * a + b * b)⟩ : CMath ℝ)
        carParam (fun _ => 0) ⟨0, 0, 0, 0, 0, 0, 0, 0⟩ ⟨0, 0⟩ 1).v_x = -0.9 := by
    norm_num [updateState_next, f_kin_correction, f_kin_blend, f, getFrontFy, getRearFy,
      getFx, getMTv, getFdrag, State.add, State.mul, carParam]
  refine ⟨?_, ?_, ?_⟩
  · simp only [updateState, h]
    norm_num
  · simp only [updateState, h]
  · intro hEq
    have hv := congrArg State.v_x hEq
    simp only [updateState, h] at hv
    norm_num at hv

/-- C9 (validation), amended: `updateState` assigns the newly computed state to
the stored state and then calls `validate` on it, so the outcome is that of
`validate` on the new state; with a `validate` that only checks (it leaves the
state it is called on as it is), the stored state after `updateState` is the
newly computed state whether validation accepts or rejects: nothing restores
the pre-update state. -/
theorem updateState_no_rollback (M : CMath K) (p : Param K) (getSlipAngle : Bool → K)
    (validate : State K → Validation K) (s : State K) (u : Input K) (dt : K)
    (hcheck : ∀ t, (validate t).state = t) :
    (updateState M p getSlipAngle validate s u dt).ok
      = (validate (updateState_next M p getSlipAngle s u dt)).ok ∧
    (updateState M p getSlipAngle validate s u dt).state
      = updateState_next M p getSlipAngle s u dt ∧
    ((updateState M p getSlipAngle validate s u dt).ok = false →
      (updateState M p getSlipAngle validate s u dt).state
        = f_kin_correction M p s
            (State.add s (State.mul
              (f M p s u (getFx p s u) (getMTv p s u)
                (getFrontFy M p getSlipAngle (getNormalForce p s))
                (getRearFy M p getSlipAngle (getNormalForce p s))) dt))
            s u (getFx p s u) (getMTv p s u) dt) := by
  refine ⟨rfl, ?_, fun _ => ?_⟩
  · simp only [updateState, hcheck]
  · simp only [updateState, hcheck]
    rfl

/-- Witness for C9 on `ℝ`: the `validate` that rejects a negative `v_x` and
leaves the state as it is, on the car of `carParam` at rest with `dt = 1`. -/
theorem updateState_no_rollback_witness :
    (updateState (⟨Real.sin, Real.cos, Real.tan, Real.arctan,
        fun a b => Real.sqrt (a * a + b * b)⟩ : CMath ℝ) carParam (fun _ => 0)
      (fun t => ⟨t, decide (0 ≤ t.v_x)⟩) ⟨0, 0, 0, 0, 0, 0, 0, 0⟩ ⟨0, 0⟩ 1).state
      = updateState_next (⟨Real.sin, Real.cos, Real.tan, Real.arctan,
        fun a b => Real.sqrt (a * a + b * b)⟩ : CMath ℝ) carParam (fun _ => 0)
        ⟨0, 0, 0, 0, 0, 0, 0, 0⟩ ⟨0, 0⟩ 1 :=
  (updateState_no_rollback (⟨Real.sin, Real.cos, Real.tan, Real.arctan,
      fun a b => Real.sqrt (a * a + b * b)⟩ : CMath ℝ) carParam (fun _ => 0)
    (fun t => ⟨t, decide (0 ≤ t.v_x)⟩) ⟨0, 0, 0, 0, 0, 0, 0, 0⟩ ⟨0, 0⟩ 1
    (fun _ => rfl)).2.1

/-- C10 as stated fails: `updateState` does not look at the sign of `dt`. With
`dt = −1`, a `validate` that accepts every state, and the car of `carParam`
driving straight at `v_x = 5` from the origin, the call is not rejected and
the computed state has `x = −5`, `v_x = 5 − 1302.5/200`. -/
theorem updateState_negative_dt_computes :
    (updateState (⟨Real.sin, Real.cos, Real.tan, Real.arctan,
        fun a b => Real.sqrt (a * a + b * b)⟩ : CMath ℝ) carParam (fun _ => 0)
      (fun t => ⟨t, true⟩) ⟨0, 0, 0, 5, 0, 0, 0, 0⟩ ⟨0, 0.3⟩ (-1)).ok = true ∧
    (updateState (⟨Real.sin, Real.cos, Real.tan, Real.arctan,
        fun a b => Real.sqrt (a * a + b * b)⟩ : CMath ℝ) carParam (fun _ => 0)
      (fun t => ⟨t, true⟩) ⟨0, 0, 0, 5, 0, 0, 0, 0⟩ ⟨0, 0.3⟩ (-1)).state.x = -5 ∧
    (updateState (⟨Real.sin, Real.cos, Real.tan, Real.arctan,
        fun a b => Real.sqrt (a * a + b * b)⟩ : CMath ℝ) carParam (fun _ => 0)
      (fun t => ⟨t, true⟩) ⟨0, 0, 0, 5, 0, 0, 0, 0⟩ ⟨0, 0.3⟩ (-1)).state.v_x
      = 5 - 1302.5 / 200 := by
  have hb : f_kin_blend (⟨Real.sin, Real.cos, Real.tan, Real.arctan,
      fun a b => Real.sqrt (a * a + b * b)⟩ : CMath ℝ) ⟨0, 0, 0, 5, 0, 0, 0, 0⟩ = 1 := by
    apply f_kin_blend_of_fast
    show (3.5 : ℝ) ≤ Real.sqrt (5 * 5 + 0 * 0)
    apply Real.le_sqrt_of_sq_le
    norm_num
  refine ⟨rfl, ?_, ?_⟩
  · norm_num [updateState, updateState_next, f_kin_correction, f, State.add, State.mul]
  · simp only [updateState, updateState_next, f_kin_correction, hb]
    norm_num [f, getFrontFy, getRearFy, getFx, getMTv, getFdrag, State.add, State.mul,
      carParam]

/-- C10 (time step), amended: `updateState` has no check of `dt`. For every
`dt`, negative and zero included, it computes the new state with that very
`dt` (`x' = x + ẋ·dt`, `y' = y + ẏ·dt`, `yaw' = yaw + r·dt`: `dt` is neither
corrected nor clamped), and the only acceptance or rejection is that of
`validate` on the computed state. -/
theorem updateState_any_dt (M : CMath K) (p : Param K) (getSlipAngle : Bool → K)
    (validate : State K → Validation K) (s : State K) (u : Input K) (dt : K) :
    updateState M p getSlipAngle validate s u dt
      = validate (updateState_next M p getSlipAngle s u dt) ∧
    (updateState_next M p getSlipAngle s u dt).x
      = s.x + (M.cos s.yaw * s.v_x - M.sin s.yaw * s.v_y) * dt ∧
    (updateState_next M p getSlipAngle s u dt).y
      = s.y + (M.sin s.yaw * s.v_x + M.cos s.yaw * s.v_y) * dt ∧
    (updateState_next M p getSlipAngle s u dt).yaw = s.yaw + s.r * dt := by
  refine ⟨rfl, ?_, ?_, ?_⟩ <;>
    simp [updateState_next, f_kin_correction, f, State.add, State.mul]

/-- C11 (yaw stabilizing moment): `getMTv` returns 0 for every state, input
and parameter set; replacing the torque-vectoring parameters (`shrinkage`,
`K_stability`) by any others changes neither the yaw-rate derivative that
`updateState` computes with `f` nor the state it computes. -/
theorem getMTv_zero (M : CMath K) (p : Param K) (getSlipAngle : Bool → K)
    (s : State K) (u : Input K) (dt : K) (tv : TorqueVectoring K) :
    getMTv p s u = 0 ∧
    getMTv { p with torqueVectoring := tv } s u = 0 ∧
    (f M { p with torqueVectoring := tv } s u
        (getFx { p with torqueVectoring := tv } s u)
        (getMTv { p with torqueVectoring := tv } s u)
        (getFrontFy M { p with torqueVectoring := tv } getSlipAngle
          (getNormalForce { p with torqueVectoring := tv } s))
        (getRearFy M { p with torqueVectoring := tv } getSlipAngle
          (getNormalForce { p with torqueVectoring := tv } s))).r
      = (f M p s u (getFx p s u) (getMTv p s u)
          (getFrontFy M p getSlipAngle (getNormalForce p s))
          (getRearFy M p getSlipAngle (getNormalForce p s))).r ∧
    (f M p s u (getFx p s u) (getMTv p s u)
        (getFrontFy M p getSlipAngle (getNormalForce p s))
        (getRearFy M p getSlipAngle (getNormalForce p s))).r
      = (M.cos u.delta * (2 * getFrontFy M p getSlipAngle (getNormalForce p s))
            * p.kinematic.l_F
          - 2 * getRearFy M p getSlipAngle (getNormalForce p s) * p.kinematic.l_R)
        / p.inertia.I_z ∧
    updateState_next M { p with torqueVectoring := tv } getSlipAngle s u dt
      = updateState_next M p getSlipAngle s u dt := by
  have h0 : ∀ q : Param K, getMTv q s u = 0 := fun q => by
    simp only [getMTv]
    norm_num
  refine ⟨h0 p, h0 _, rfl, ?_, rfl⟩
  rw [h0 p]
  simp only [f]
  congr 1
  ring

/-- C12 (frame of the kinematic correction): `f_kin_correction` returns `x`,
`y`, `yaw`, `a_x` and `a_y` of its Euler-stepped argument `x_in` unchanged;
hence the state computed by `updateState` has
`x' = x + dt·(cos(yaw)·v_x − sin(yaw)·v_y)`,
`y' = y + dt·(sin(yaw)·v_x + cos(yaw)·v_y)`, `yaw' = yaw + dt·r`, and `a_x`,
`a_y` keep their pre-step values. -/
theorem f_kin_correction_frame (M : CMath K) (p : Param K) (getSlipAngle : Bool → K)
    (state_ x_in x_state s : State K) (u : Input K) (Fx M_TV dt : K) :
    ((f_kin_correction M p state_ x_in x_state u Fx M_TV dt).x = x_in.x ∧
     (f_kin_correction M p state_ x_in x_state u Fx M_TV dt).y = x_in.y ∧
     (f_kin_correction M p state_ x_in x_state u Fx M_TV dt).yaw = x_in.yaw ∧
     (f_kin_correction M p state_ x_in x_state u Fx M_TV dt).a_x = x_in.a_x ∧
     (f_kin_correction M p state_ x_in x_state u Fx M_TV dt).a_y = x_in.a_y) ∧
    (updateState_next M p getSlipAngle s u dt).x
      = s.x + dt * (M.cos s.yaw * s.v_x - M.sin s.yaw * s.v_y) ∧
    (updateState_next M p getSlipAngle s u dt).y
      = s.y + dt * (M.sin s.yaw * s.v_x + M.cos s.yaw * s.v_y) ∧
    (updateState_next M p getSlipAngle s u dt).yaw = s.yaw + dt * s.r ∧
    (updateState_next M p getSlipAngle s u dt).a_x = s.a_x ∧
    (updateState_next M p getSlipAngle s u dt).a_y = s.a_y := by
  refine ⟨⟨rfl, rfl, rfl, rfl, rfl⟩, ?_, ?_, ?_, ?_, ?_⟩
  · simp only [updateState_next, f_kin_correction, f, State.add, State.mul]
    ring
  · simp only [updateState_next, f_kin_correction, f, State.add, State.mul]
    ring
  · simp only [updateState_next, f_kin_correction, f, State.add, State.mul]
    ring
  · simp only [updateState_next, f_kin_correction, f, State.add, State.mul]
    ring
  · simp only [updateState_next, f_kin_correction, f, State.add, State.mul]
    ring

/-- C13 (dynamic derivative): for every state, input, `Fx`, `M_Tv`, `FyF`,
`FyR`, `f` returns `x_dot = cos(yaw)·v_x − sin(yaw)·v_y`,
`y_dot = sin(yaw)·v_x + cos(yaw)·v_y`, `yaw_dot = r`,
`v_x_dot = r·v_y + (Fx − sin(delta)·2·FyF)/(m + m_lon_add)`,
`v_y_dot = (cos(delta)·2·FyF + 2·FyR)/m − r·max(1, v_x)`,
`r_dot = (cos(delta)·2·FyF·l_F − 2·FyR·l_R + M_Tv)/I_z`, `a_x_dot = a_y_dot = 0`:
the floor `max(1, v_x)` is in `v_y_dot` only, and `r_dot` is the same for every
value of `b_F`. -/
theorem f_single_track (M : CMath K) (p : Param K) (x : State K) (u : Input K)
    (Fx M_TV FyF FyR b : K) :
    (f M p x u Fx M_TV FyF FyR).x = M.cos x.yaw * x.v_x - M.sin x.yaw * x.v_y ∧
    (f M p x u Fx M_TV FyF FyR).y = M.sin x.yaw * x.v_x + M.cos x.yaw * x.v_y ∧
    (f M p x u Fx M_TV FyF FyR).yaw = x.r ∧
    (f M p x u Fx M_TV FyF FyR).v_x
      = x.r * x.v_y + (Fx - M.sin u.delta * (2 * FyF))
          / (p.inertia.m + p.driveTrain.m_lon_add) ∧
    (f M p x u Fx M_TV FyF FyR).v_y
      = (M.cos u.delta * (2 * FyF) + 2 * FyR) / p.inertia.m - x.r * max 1 x.v_x ∧
    (f M p x u Fx M_TV FyF FyR).r
      = (M.cos u.delta * (2 * FyF) * p.kinematic.l_F - 2 * FyR * p.kinematic.l_R + M_TV)
          / p.inertia.I_z ∧
    (f M p x u Fx M_TV FyF FyR).a_x = 0 ∧
    (f M p x u Fx M_TV FyF FyR).a_y = 0 ∧
    (f M { p with kinematic := { p.kinematic with b_F := b } } x u Fx M_TV FyF FyR).r
      = (f M p x u Fx M_TV FyF FyR).r := by
  refine ⟨rfl, rfl, rfl, rfl, ?_, ?_, rfl, rfl, ?_⟩
  · simp only [f, lit_one]
  · simp only [f]
    congr 1
    ring
  · simp only [f]
    congr 1
    ring

/-- C14 (blend factor): the blend factor is
`max(min(1, 0.5·(hypot(v_x, v_y) − 1.5)), 0)` of the pre-step state's own `v_x`
and `v_y`; it is the weight `updateState` uses to mix the Euler-stepped `v_x`
with the kinematic one, whatever the Euler-stepped state is. It lies in
`[0, 1]`, is 0 exactly when the speed is at most 1.5, and does not decrease
when the speed grows. -/
theorem f_kin_blend_spec (M : CMath K) (p : Param K) (getSlipAngle : Bool → K)
    (s : State K) (u : Input K) (dt : K) :
    f_kin_blend M s = max (min 1 (0.5 * (M.hypot s.v_x s.v_y - 1.5))) 0 ∧
    (updateState_next M p getSlipAngle s u dt).v_x
      = f_kin_blend M s
          * (s.v_x + (f M p s u (getFx p s u) (getMTv p s u)
              (getFrontFy M p getSlipAngle (getNormalForce p s))
              (getRearFy M p getSlipAngle (getNormalForce p s))).v_x * dt)
        + (1 - f_kin_blend M s)
          * (s.v_x + dt * (getFx p s u / (p.inertia.m + p.driveTrain.m_lon_add))) ∧
    (0 ≤ f_kin_blend M s ∧ f_kin_blend M s ≤ 1) ∧
    (f_kin_blend M s = 0 ↔ M.hypot s.v_x s.v_y ≤ 1.5) ∧
    (∀ t : State K, M.hypot s.v_x s.v_y ≤ M.hypot t.v_x t.v_y →
      f_kin_blend M s ≤ f_kin_blend M t) := by
  refine ⟨?_, ?_, ⟨f_kin_blend_nonneg M s, f_kin_blend_le_one M s⟩,
    f_kin_blend_eq_zero_iff M s, fun t h => f_kin_blend_mono M s t h⟩
  · simp only [f_kin_blend]
    norm_num
  · simp only [updateState_next, f_kin_correction, State.add, State.mul, lit_one]

/-- Witness for C14 on `ℝ` with the real `hypot`: the speed grows from
`hypot(0.6, 0.8) = 1` to `hypot(2, 1.5) = 2.5`, the blend factor from 0 to
0.5. -/
theorem f_kin_blend_spec_witness :
    f_kin_blend (⟨Real.sin, Real.cos, Real.tan, Real.arctan,
        fun a b => Real.sqrt (a * a + b * b)⟩ : CMath ℝ) ⟨0, 0, 0, 0.6, 0.8, 0, 0, 0⟩
      ≤ f_kin_blend (⟨Real.sin, Real.cos, Real.tan, Real.arctan,
        fun a b => Real.sqrt (a * a + b * b)⟩ : CMath ℝ) ⟨0, 0, 0, 2, 1.5, 0, 0, 0⟩ ∧
    f_kin_blend (⟨Real.sin, Real.cos, Real.tan, Real.arctan,
        fun a b => Real.sqrt (a * a + b * b)⟩ : CMath ℝ) ⟨0, 0, 0, 0.6, 0.8, 0, 0, 0⟩ = 0 :=
  have h1 : Real.sqrt (0.6 * 0.6 + 0.8 * 0.8) = 1 := by
    rw [show (0.6 * 0.6 + 0.8 * 0.8 : ℝ) = 1 * 1 by norm_num,
      Real.sqrt_mul_self (by norm_num)]
  have h2 : Real.sqrt (2 * 2 + 1.5 * 1.5) = 2.5 := by
    rw [show (2 * 2 + 1.5 * 1.5 : ℝ) = 2.5 * 2.5 by norm_num,
      Real.sqrt_mul_self (by norm_num)]
  have h := f_kin_blend_spec (⟨Real.sin, Real.cos, Real.tan, Real.arctan,
      fun a b => Real.sqrt (a * a + b * b)⟩ : CMath ℝ) carParam (fun _ => 0)
    ⟨0, 0, 0, 0.6, 0.8, 0, 0, 0⟩ ⟨0, 0⟩ 0.01
  ⟨h.2.2.2.2 ⟨0, 0, 0, 2, 1.5, 0, 0, 0⟩
      (by show Real.sqrt (0.6 * 0.6 + 0.8 * 0.8) ≤ Real.sqrt (2 * 2 + 1.5 * 1.5)
          rw [h1, h2]; norm_num),
    h.2.2.2.1.2
      (by show Real.sqrt (0.6 * 0.6 + 0.8 * 0.8) ≤ 1.5
          rw [h1]; norm_num)⟩

/-- C15 (rear-axle load): `getRearFy` takes its axle load from
`getDownForceFront`, that is `0.5·w_front·Fz` as in `getFrontFy`, so the rear
fraction `1 − w_front` is not in its value; when the front and rear slip
angles are equal, `getRearFy(Fz) = getFrontFy(Fz)` for every `Fz` and every
parameter set. -/
theorem getRearFy_front_load (M : CMath K) (p : Param K) (getSlipAngle : Bool → K) (Fz : K)
    (hslip : getSlipAngle false = getSlipAngle true) :
    getRearFy M p getSlipAngle Fz
      = 0.5 * p.kinematic.w_front * Fz
        * (p.tire.D * M.sin (p.tire.C * M.atan
            (p.tire.B * (1 - p.tire.E) * getSlipAngle false
              + p.tire.E * M.atan (p.tire.B * getSlipAngle false)))) ∧
    getFrontFy M p getSlipAngle Fz
      = 0.5 * p.kinematic.w_front * Fz
        * (p.tire.D * M.sin (p.tire.C * M.atan
            (p.tire.B * (1 - p.tire.E) * getSlipAngle true
              + p.tire.E * M.atan (p.tire.B * getSlipAngle true)))) ∧
    getRearFy M p getSlipAngle Fz = getFrontFy M p getSlipAngle Fz := by
  refine ⟨?_, ?_, ?_⟩
  · simp only [getRearFy, getDownForceFront, lit_one]
  · simp only [getFrontFy, getDownForceFront, lit_one]
  · simp only [getRearFy, getFrontFy, hslip]

/-- Witness for C15 on `ℝ` with the real `sin` and `arctan`: `carParam`, both
slip angles 0.1, `Fz = 2000`. -/
theorem getRearFy_front_load_witness :
    getRearFy (⟨Real.sin, Real.cos, Real.tan, Real.arctan,
        fun a b => Real.sqrt (a * a + b * b)⟩ : CMath ℝ) carParam (fun _ => 0.1) 2000
      = getFrontFy (⟨Real.sin, Real.cos, Real.tan, Real.arctan,
        fun a b => Real.sqrt (a * a + b * b)⟩ : CMath ℝ) carParam (fun _ => 0.1) 2000 :=
  (getRearFy_front_load (⟨Real.sin, Real.cos, Real.tan, Real.arctan,
      fun a b => Real.sqrt (a * a + b * b)⟩ : CMath ℝ) carParam (fun _ => 0.1) 2000 rfl).2.2

/-- C16 (total front lateral force): the total front-axle force `updateState`
feeds into the derivative, `2·getFrontFy(getNormalForce(state))`, equals
`w_front·(m·g + c_down·v_x²)·D·sin(C·atan(B·(1−E)·alpha + E·atan(B·alpha)))`
with `alpha` the front slip angle: twice the per-wheel value for the normal
load `Fz = m·g + c_down·v_x²`. -/
theorem getFrontFy_total (M : CMath K) (p : Param K) (getSlipAngle : Bool → K)
    (s : State K) :
    getNormalForce p s = p.inertia.m * p.inertia.g + p.aero.c_down * s.v_x ^ 2 ∧
    2 * getFrontFy M p getSlipAngle (getNormalForce p s)
      = p.kinematic.w_front * (p.inertia.m * p.inertia.g + p.aero.c_down * s.v_x ^ 2)
        * p.tire.D * M.sin (p.tire.C * M.atan
            (p.tire.B * (1 - p.tire.E) * getSlipAngle true
              + p.tire.E * M.atan (p.tire.B * getSlipAngle true))) := by
  constructor
  · simp only [getNormalForce, getFdown]
    ring
  · simp only [getFrontFy, getDownForceFront, getNormalForce, getFdown, lit_one]
    norm_num
    ring

/-- C17 (monotone drive force): for every state, whatever the sign of `v_x`,
and every parameter set with `cm1 ≥ 0`, `getFx` does not decrease when `dc`
grows: `dc1 ≤ dc2` gives `getFx(state, dc1) ≤ getFx(state, dc2)`, also when
`dc1 < 0` is replaced by 0 because `v_x ≤ 0`. -/
theorem getFx_mono (p : Param K) (x : State K) (u1 u2 : Input K)
    (hcm1 : 0 ≤ p.driveTrain.cm1) (hdc : u1.dc ≤ u2.dc) :
    getFx p x u1 ≤ getFx p x u2 := by
  have key : (if x.v_x ≤ 0.0 ∧ u1.dc < 0.0 then (0.0 : K) else u1.dc)
      ≤ (if x.v_x ≤ 0.0 ∧ u2.dc < 0.0 then (0.0 : K) else u2.dc) := by
    norm_num
    split_ifs with h1 h2 h2
    · exact le_rfl
    · have h3 : ¬ u2.dc < 0 := fun h => h2 ⟨h1.1, h⟩
      exact not_lt.mp h3
    · exact absurd ⟨h2.1, lt_of_le_of_lt hdc h2.2⟩ h1
    · exact hdc
  simp only [getFx]
  have := mul_le_mul_of_nonneg_right key hcm1
  linarith

/-- Witness for C17 on `ℚ`: rolling backwards (`v_x = −2`) with `carParam`,
`dc` grows from −1 (replaced by 0) to 0.5. -/
theorem getFx_mono_witness :
    getFx (carParam : Param ℚ) ⟨0, 0, 0, -2, 0, 0, 0, 0⟩ ⟨0, -1⟩
      ≤ getFx (carParam : Param ℚ) ⟨0, 0, 0, -2, 0, 0, 0, 0⟩ ⟨0, 0.5⟩ :=
  getFx_mono carParam ⟨0, 0, 0, -2, 0, 0, 0, 0⟩ ⟨0, -1⟩ ⟨0, 0.5⟩
    (by norm_num [carParam]) (by norm_num)

/-- C18 (odd tire curve): for every `Fz` and every tire parameter set, the
lateral force that `getFrontFy` and `getRearFy` compute for the negated slip
angle is the negation of the force for the slip angle, and the force for slip
angle 0 is 0. The facts used about `<cmath>` are that `sin` and `atan` are
odd. -/
theorem tire_force_odd (M : CMath K) (p : Param K) (getSlipAngle : Bool → K) (Fz : K)
    (hsin : ∀ t, M.sin (-t) = -M.sin t) (hatan : ∀ t, M.atan (-t) = -M.atan t) :
    getFrontFy M p (fun isFront => -getSlipAngle isFront) Fz
      = -getFrontFy M p getSlipAngle Fz ∧
    getRearFy M p (fun isFront => -getSlipAngle isFront) Fz
      = -getRearFy M p getSlipAngle Fz ∧
    getFrontFy M p (fun _ => 0) Fz = 0 ∧
    getRearFy M p (fun _ => 0) Fz = 0 := by
  have hs0 := cmath_odd_zero M.sin hsin
  have ha0 := cmath_odd_zero M.atan hatan
  refine ⟨?_, ?_, getFrontFy_zero_slip M p _ Fz rfl hs0 ha0,
    getRearFy_zero_slip M p _ Fz rfl hs0 ha0⟩
  · simp only [getFrontFy]
    rw [tire_curve_neg M hsin hatan, mul_neg]
  · simp only [getRearFy]
    rw [tire_curve_neg M hsin hatan, mul_neg]

/-- Witness for C18 on `ℝ` with the real `sin` and `arctan`: `carParam`,
`Fz = 2000`, slip angles 0.1 (front) and −0.2 (rear) against their
negations. -/
theorem tire_force_odd_witness :
    getFrontFy (⟨Real.sin, Real.cos, Real.tan, Real.arctan,
        fun a b => Real.sqrt (a * a + b * b)⟩ : CMath ℝ) carParam
        (fun isFront => -(if isFront then 0.1 else -0.2)) 2000
      = -getFrontFy (⟨Real.sin, Real.cos, Real.tan, Real.arctan,
        fun a b => Real.sqrt (a * a + b * b)⟩ : CMath ℝ) carParam
        (fun isFront => if isFront then 0.1 else -0.2) 2000 ∧
    getRearFy (⟨Real.sin, Real.cos, Real.tan, Real.arctan,
        fun a b => Real.sqrt (a * a + b * b)⟩ : CMath ℝ) carParam
        (fun isFront => -(if isFront then 0.1 else -0.2)) 2000
      = -getRearFy (⟨Real.sin, Real.cos, Real.tan, Real.arctan,
        fun a b => Real.sqrt (a * a + b * b)⟩ : CMath ℝ) carParam
        (fun isFront => if isFront then 0.1 else -0.2) 2000 :=
  have h := tire_force_odd (⟨Real.sin, Real.cos, Real.tan, Real.arctan,
      fun a b => Real.sqrt (a * a + b * b)⟩ : CMath ℝ) carParam
    (fun isFront => if isFront then 0.1 else -0.2) 2000 Real.sin_neg Real.arctan_neg
  ⟨h.1, h.2.1⟩

/-- C19 as stated fails at a parameter set with `m = 0` and `m_lon_add = 0`:
with `dt = 0` the longitudinal derivative is a quotient by `m + m_lon_add = 0.0`
and the lateral one a quotient by `m = 0.0`; they are not finite, their
products with `dt = 0.0` are NaN, and the computed `v_x` and `v_y` are NaN, not
the pre-step values 4 and 3 (pre-step speed `hypot(4, 3) = 5 ≥ 3.5`). -/
theorem updateState_zero_dt_zero_mass :
    (3.5 : ℝ) ≤ Real.sqrt (4 * 4 + 3 * 3) ∧
    (updateState_next_checked (⟨Real.sin, Real.cos, Real.tan, Real.arctan,
        fun a b => Real.sqrt (a * a + b * b)⟩ : CMath ℝ)
      { carParam with inertia := ⟨0, 9.81, 110⟩, driveTrain := ⟨5000, 180, 0⟩ }
      (fun isFront => if isFront then 0.1 else -0.2)
      ⟨1, 2, 0.5, 4, 3, 0.2, 0, 0⟩ ⟨0.1, 0.3⟩ 0).v_x = Dbl.nonfin ∧
    (updateState_next_checked (⟨Real.sin, Real.cos, Real.tan, Real.arctan,
        fun a b => Real.sqrt (a * a + b * b)⟩ : CMath ℝ)
      { carParam with inertia := ⟨0, 9.81, 110⟩, driveTrain := ⟨5000, 180, 0⟩ }
      (fun isFront => if isFront then 0.1 else -0.2)
      ⟨1, 2, 0.5, 4, 3, 0.2, 0, 0⟩ ⟨0.1, 0.3⟩ 0).v_x ≠ Dbl.fin 4 ∧
    (updateState_next_checked (⟨Real.sin, Real.cos, Real.tan, Real.arctan,
        fun a b => Real.sqrt (a * a + b * b)⟩ : CMath ℝ)
      { carParam with inertia := ⟨0, 9.81, 110⟩, driveTrain := ⟨5000, 180, 0⟩ }
      (fun isFront => if isFront then 0.1 else -0.2)
      ⟨1, 2, 0.5, 4, 3, 0.2, 0, 0⟩ ⟨0.1, 0.3⟩ 0).v_y = Dbl.nonfin := by
  have h := updateState_next_checked_zero_m_lon (⟨Real.sin, Real.cos, Real.tan, Real.arctan,
        fun a b => Real.sqrt (a * a + b * b)⟩ : CMath ℝ)
    { carParam with inertia := ⟨0, 9.81, 110⟩, driveTrain := ⟨5000, 180, 0⟩ }
    (fun isFront => if isFront then 0.1 else -0.2)
    ⟨1, 2, 0.5, 4, 3, 0.2, 0, 0⟩ ⟨0.1, 0.3⟩ 0 (by norm_num)
  have h2 := updateState_next_checked_zero_m (⟨Real.sin, Real.cos, Real.tan, Real.arctan,
        fun a b => Real.sqrt (a * a + b * b)⟩ : CMath ℝ)
    { carParam with inertia := ⟨0, 9.81, 110⟩, driveTrain := ⟨5000, 180, 0⟩ }
    (fun isFront => if isFront then 0.1 else -0.2)
    ⟨1, 2, 0.5, 4, 3, 0.2, 0, 0⟩ ⟨0.1, 0.3⟩ 0 rfl
  refine ⟨?_, h, ?_, h2⟩
  · apply Real.le_sqrt_of_sq_le
    norm_num
  · rw [h]
    exact fun hEq => Dbl.noConfusion hEq

/-- C19 (zero time step), amended: for `dt = 0` and every state and input, the
state computed by `updateState` has `x`, `y`, `yaw`, `a_x` and `a_y` equal to
their pre-step values for every parameter set, `v_x` equal to its pre-step
value for every parameter set with `m + m_lon_add ≠ 0`, and, when in addition
the pre-step speed `hypot(v_x, v_y)` is at least 3.5 and `m`, `I_z` and `l` are
different from 0, the whole state unchanged. -/
theorem updateState_zero_dt (M : CMath K) (p : Param K) (getSlipAngle : Bool → K)
    (s : State K) (u : Input K) :
    (updateState_next_checked M p getSlipAngle s u 0).x = Dbl.fin s.x ∧
    (updateState_next_checked M p getSlipAngle s u 0).y = Dbl.fin s.y ∧
    (updateState_next_checked M p getSlipAngle s u 0).yaw = Dbl.fin s.yaw ∧
    (updateState_next_checked M p getSlipAngle s u 0).a_x = Dbl.fin s.a_x ∧
    (updateState_next_checked M p getSlipAngle s u 0).a_y = Dbl.fin s.a_y ∧
    (p.inertia.m + p.driveTrain.m_lon_add ≠ 0 →
      (updateState_next_checked M p getSlipAngle s u 0).v_x = Dbl.fin s.v_x) ∧
    (3.5 ≤ M.hypot s.v_x s.v_y → p.inertia.m ≠ 0 → p.inertia.I_z ≠ 0 →
      p.inertia.m + p.driveTrain.m_lon_add ≠ 0 → p.kinematic.l ≠ 0 →
      updateState_next_checked M p getSlipAngle s u 0 = State.fin s) := by
  have hf := updateState_zero_dt_field M p getSlipAngle s u
  have hfr := updateState_next_checked_frame M p getSlipAngle s u 0
  have hx : (updateState_next_checked M p getSlipAngle s u 0).x = Dbl.fin s.x :=
    hfr.1.trans (congrArg Dbl.fin hf.1)
  have hy : (updateState_next_checked M p getSlipAngle s u 0).y = Dbl.fin s.y :=
    hfr.2.1.trans (congrArg Dbl.fin hf.2.1)
  have hyaw : (updateState_next_checked M p getSlipAngle s u 0).yaw = Dbl.fin s.yaw :=
    hfr.2.2.1.trans (congrArg Dbl.fin hf.2.2.1)
  have hax : (updateState_next_checked M p getSlipAngle s u 0).a_x = Dbl.fin s.a_x :=
    hfr.2.2.2.1.trans (congrArg Dbl.fin hf.2.2.2.2.1)
  have hay : (updateState_next_checked M p getSlipAngle s u 0).a_y = Dbl.fin s.a_y :=
    hfr.2.2.2.2.trans (congrArg Dbl.fin hf.2.2.2.2.2.1)
  have hvx : p.inertia.m + p.driveTrain.m_lon_add ≠ 0 →
      (updateState_next_checked M p getSlipAngle s u 0).v_x = Dbl.fin s.v_x :=
    fun hmlon => (updateState_next_checked_v_x M p getSlipAngle s u 0 hmlon).trans
      (congrArg Dbl.fin hf.2.2.2.1)
  refine ⟨hx, hy, hyaw, hax, hay, hvx, fun hv hm hI hmlon hl => ?_⟩
  have hs := hf.2.2.2.2.2.2 hv
  apply State.eq_of_fields _ _ hx hy hyaw (hvx hmlon) _ _ hax hay
  · rw [updateState_next_checked_v_y M p getSlipAngle s u 0 hm hmlon hl, hs]
    rfl
  · rw [updateState_next_checked_r M p getSlipAngle s u 0 hI hmlon hl, hs]
    rfl

/-- Witness for C19 on `ℝ` with the real `hypot`: the car of `carParam` at
`v_x = 4`, `v_y = 3` (speed 5), `r = 0.2`, steering 0.1, `dc = 0.3`. -/
theorem updateState_zero_dt_witness :
    updateState_next_checked (⟨Real.sin, Real.cos, Real.tan, Real.arctan,
        fun a b => Real.sqrt (a * a + b * b)⟩ : CMath ℝ) carParam
      (fun isFront => if isFront then 0.1 else -0.2)
      ⟨1, 2, 0.5, 4, 3, 0.2, 0, 0⟩ ⟨0.1, 0.3⟩ 0
      = State.fin ⟨1, 2, 0.5, 4, 3, 0.2, 0, 0⟩ :=
  (updateState_zero_dt (⟨Real.sin, Real.cos, Real.tan, Real.arctan,
        fun a b => Real.sqrt (a * a + b * b)⟩ : CMath ℝ) carParam
    (fun isFront => if isFront then 0.1 else -0.2)
    ⟨1, 2, 0.5, 4, 3, 0.2, 0, 0⟩ ⟨0.1, 0.3⟩).2.2.2.2.2.2
    (by show (3.5 : ℝ) ≤ Real.sqrt (4 * 4 + 3 * 3)
        apply Real.le_sqrt_of_sq_le
        norm_num)
    (by norm_num [carParam]) (by norm_num [carParam]) (by norm_num [carParam])
    (by norm_num [carParam])

/-- C20 as stated fails at wheelbase `l = 0`: with pre-step speed
`hypot(0.6, 0.8) = 1 ≤ 1.5` and `delta = 0`, the kinematic values are
`tan(0)·v_x·l_R / 0.0` and `tan(0)·v_x / 0.0`, that is `0.0 / 0.0`: the returned
`v_y` and `r` are NaN, so no numbers `v_y`, `r` with `v_y = l_R·r` (here
`l_R = 0.75`) are returned. -/
theorem f_kin_correction_no_slip_zero_l :
    Real.sqrt (0.6 * 0.6 + 0.8 * 0.8) ≤ 1.5 ∧
    (f_kin_correction_checked (⟨Real.sin, Real.cos, Real.tan, Real.arctan,
        fun a b => Real.sqrt (a * a + b * b)⟩ : CMath ℝ)
      { carParam with kinematic := ⟨0, 1.22, 0.5, 0.75, 0.75⟩ }
      ⟨0, 0, 0, 0.6, 0.8, 0, 0, 0⟩ (State.fin ⟨0, 0, 0, 7, 8, 9, 0, 0⟩)
      ⟨0, 0, 0, 0.6, 0.8, 0, 0, 0⟩ ⟨0, 0⟩ 400 0 0.01).v_y = Dbl.nonfin ∧
    (f_kin_correction_checked (⟨Real.sin, Real.cos, Real.tan, Real.arctan,
        fun a b => Real.sqrt (a * a + b * b)⟩ : CMath ℝ)
      { carParam with kinematic := ⟨0, 1.22, 0.5, 0.75, 0.75⟩ }
      ⟨0, 0, 0, 0.6, 0.8, 0, 0, 0⟩ (State.fin ⟨0, 0, 0, 7, 8, 9, 0, 0⟩)
      ⟨0, 0, 0, 0.6, 0.8, 0, 0, 0⟩ ⟨0, 0⟩ 400 0 0.01).r = Dbl.nonfin ∧
    ¬ ∃ a b : ℝ,
      (f_kin_correction_checked (⟨Real.sin, Real.cos, Real.tan, Real.arctan,
        fun a b => Real.sqrt (a * a + b * b)⟩ : CMath ℝ)
        { carParam with kinematic := ⟨0, 1.22, 0.5, 0.75, 0.75⟩ }
        ⟨0, 0, 0, 0.6, 0.8, 0, 0, 0⟩ (State.fin ⟨0, 0, 0, 7, 8, 9, 0, 0⟩)
        ⟨0, 0, 0, 0.6, 0.8, 0, 0, 0⟩ ⟨0, 0⟩ 400 0 0.01).v_y = Dbl.fin a ∧
      (f_kin_correction_checked (⟨Real.sin, Real.cos, Real.tan, Real.arctan,
        fun a b => Real.sqrt (a * a + b * b)⟩ : CMath ℝ)
        { carParam with kinematic := ⟨0, 1.22, 0.5, 0.75, 0.75⟩ }
        ⟨0, 0, 0, 0.6, 0.8, 0, 0, 0⟩ (State.fin ⟨0, 0, 0, 7, 8, 9, 0, 0⟩)
        ⟨0, 0, 0, 0.6, 0.8, 0, 0, 0⟩ ⟨0, 0⟩ 400 0 0.01).r = Dbl.fin b ∧
      a = 0.75 * b := by
  have h := f_kin_correction_checked_zero_l (⟨Real.sin, Real.cos, Real.tan, Real.arctan,
        fun a b => Real.sqrt (a * a + b * b)⟩ : CMath ℝ)
    { carParam with kinematic := ⟨0, 1.22, 0.5, 0.75, 0.75⟩ }
    ⟨0, 0, 0, 0.6, 0.8, 0, 0, 0⟩ (State.fin ⟨0, 0, 0, 7, 8, 9, 0, 0⟩)
    ⟨0, 0, 0, 0.6, 0.8, 0, 0, 0⟩ ⟨0, 0⟩ 400 0 0.01 rfl
  refine ⟨?_, h.1, h.2, ?_⟩
  · rw [show (0.6 * 0.6 + 0.8 * 0.8 : ℝ) = 1 * 1 by norm_num,
      Real.sqrt_mul_self (by norm_num)]
    norm_num
  · rintro ⟨a, b, ha, -, -⟩
    rw [h.1] at ha
    exact Dbl.noConfusion ha

/-- C20 (no-slip relation at low speed), amended: when the speed
`hypot(v_x, v_y)` of the pre-step state is at most 1.5, for every input, `dt`,
`Fx`, finite Euler-stepped state, steering angle and every parameter set with
`l ≠ 0` and `m + m_lon_add ≠ 0`, the state returned by `f_kin_correction` has
the finite yaw rate `r = tan(delta)·(v_x(pre) + dt·Fx/m_lon)/l` and the finite
lateral speed `v_y = l_R·r`. -/
theorem f_kin_correction_no_slip (M : CMath K) (p : Param K)
    (state_ x_in x_state : State K) (u : Input K) (Fx M_TV dt : K)
    (h : M.hypot state_.v_x state_.v_y ≤ 1.5)
    (hl : p.kinematic.l ≠ 0) (hmlon : p.inertia.m + p.driveTrain.m_lon_add ≠ 0) :
    (f_kin_correction_checked M p state_ (State.fin x_in) x_state u Fx M_TV dt).r
      = Dbl.fin (M.tan u.delta
          * (x_state.v_x + dt * Fx / (p.inertia.m + p.driveTrain.m_lon_add))
          / p.kinematic.l) ∧
    (f_kin_correction_checked M p state_ (State.fin x_in) x_state u Fx M_TV dt).v_y
      = Dbl.fin (p.kinematic.l_R
          * (M.tan u.delta
            * (x_state.v_x + dt * Fx / (p.inertia.m + p.driveTrain.m_lon_add))
            / p.kinematic.l)) := by
  have hv := f_kin_correction_no_slip_field M p state_ x_in x_state u Fx M_TV dt h
  have hr := f_kin_correction_slow_r_field M p state_ x_in x_state u Fx M_TV dt h
  rw [f_kin_correction_checked_fin M p state_ x_in x_state u Fx M_TV dt hl hmlon]
  refine ⟨congrArg Dbl.fin hr, ?_⟩
  show Dbl.fin (f_kin_correction M p state_ x_in x_state u Fx M_TV dt).v_y = _
  rw [hv, hr]

/-- Witness for C20 on `ℝ` with the real `hypot` and `tan`: pre-step
`v_x = 0.6`, `v_y = 0.8` (speed 1), steering `arctan 1`, `Fx = 400`,
`dt = 0.01`, `carParam` (`l = 1.5`, `l_R = 0.75`, `m + m_lon_add = 200`): the
returned `r` is `0.62/1.5` and `v_y` is `0.75` times it. -/
theorem f_kin_correction_no_slip_witness :
    (f_kin_correction_checked (⟨Real.sin, Real.cos, Real.tan, Real.arctan,
        fun a b => Real.sqrt (a * a + b * b)⟩ : CMath ℝ) carParam
      ⟨0, 0, 0, 0.6, 0.8, 0, 0, 0⟩ (State.fin ⟨0, 0, 0, 7, 8, 9, 0, 0⟩)
      ⟨0, 0, 0, 0.6, 0.8, 0, 0, 0⟩ ⟨Real.arctan 1, 0⟩ 400 0 0.01).r
      = Dbl.fin (0.62 / 1.5) ∧
    (f_kin_correction_checked (⟨Real.sin, Real.cos, Real.tan, Real.arctan,
        fun a b => Real.sqrt (a * a + b * b)⟩ : CMath ℝ) carParam
      ⟨0, 0, 0, 0.6, 0.8, 0, 0, 0⟩ (State.fin ⟨0, 0, 0, 7, 8, 9, 0, 0⟩)
      ⟨0, 0, 0, 0.6, 0.8, 0, 0, 0⟩ ⟨Real.arctan 1, 0⟩ 400 0 0.01).v_y
      = Dbl.fin (0.75 * (0.62 / 1.5)) := by
  have h := f_kin_correction_no_slip (⟨Real.sin, Real.cos, Real.tan, Real.arctan,
        fun a b => Real.sqrt (a * a + b * b)⟩ : CMath ℝ) carParam
    ⟨0, 0, 0, 0.6, 0.8, 0, 0, 0⟩ ⟨0, 0, 0, 7, 8, 9, 0, 0⟩ ⟨0, 0, 0, 0.6, 0.8, 0, 0, 0⟩
    ⟨Real.arctan 1, 0⟩ 400 0 0.01
    (by show Real.sqrt (0.6 * 0.6 + 0.8 * 0.8) ≤ 1.5
        rw [show (0.6 * 0.6 + 0.8 * 0.8 : ℝ) = 1 * 1 by norm_num,
          Real.sqrt_mul_self (by norm_num)]
        norm_num)
    (by norm_num [carParam]) (by norm_num [carParam])
  refine ⟨h.1.trans ?_, h.2.trans ?_⟩
  · congr 1
    simp only [Real.tan_arctan, carParam]
    norm_num
  · congr 1
    simp only [Real.tan_arctan, carParam]
    norm_num

end Claims

end KinematicBicycle
